import Mathlib

/-!
Verification development for the `bevy_ecss` stylesheet engine.

The definitions below are a shallow embedding of the Rust sources:
  - `src/property/mod.rs`   (tokens, value interpreters, cache engine)
  - `src/property/impls.rs` (concrete property contracts)
  - `src/stylesheet.rs`     (stylesheet document and rule lookup)
  - `src/lib.rs`            (error taxonomy)

Rust `f32` values are embedded as `ℚ` (the claims only exercise exact
values), `u64` hashes as `ℕ`, and `HashMap`s as association lists whose
keys are kept unique by the insert operation.  Fallible Rust paths are
embedded with `Option`/`Except`; a Rust panic is embedded as `Option.none`
of the surrounding computation.
-/

set_option maxHeartbeats 1000000

namespace BevyEcss

/-- Rust truncating conversion of a rational towards zero (`f32 as iN`
truncates the fractional part; `ℚ` has no NaN or infinities). -/
def ratTrunc (q : ℚ) : ℤ :=
  Int.tdiv q.num (q.den : ℤ)

/-- Rust saturating cast `f32 as i16` (used by `grid_placement`). -/
def toI16 (q : ℚ) : ℤ :=
  max (-32768) (min 32767 (ratTrunc q))

/-- Rust saturating cast `f32 as u16` (used by `grid_placement` and
`GridTrackRepetition::try_from`). -/
def toU16 (q : ℚ) : ℤ :=
  max 0 (min 65535 (ratTrunc q))

/-- `PropertyToken` from `src/property/mod.rs`: a property value token
parsed from a CSS rule. -/
inductive PropertyToken : Type where
  | percentage (v : ℚ)
  | dimension (v : ℚ)
  | vmin (v : ℚ)
  | vmax (v : ℚ)
  | vh (v : ℚ)
  | vw (v : ℚ)
  | fr (v : ℚ)
  | number (v : ℚ)
  | identifier (s : String)
  | hash (s : String)
  | string (s : String)
  | function (name : String) (args : List PropertyToken)
  | slash

/-- `PropertyValues` from `src/property/mod.rs`: the ordered token list of
one declaration. -/
abbrev PropertyValues : Type := List PropertyToken

/-- `bevy_ui::Val` (external collaborator type used by the interpreters). -/
inductive Val : Type where
  | auto
  | px (v : ℚ)
  | percent (v : ℚ)
  | vmin (v : ℚ)
  | vmax (v : ℚ)
  | vh (v : ℚ)
  | vw (v : ℚ)
deriving DecidableEq

/-- `Val::default()` is `Val::Auto` in bevy. -/
instance : Inhabited Val := ⟨Val.auto⟩

/-- `bevy_ui::UiRect`. -/
structure UiRect : Type where
  left : Val
  right : Val
  top : Val
  bottom : Val
deriving DecidableEq

/-- `UiRect::all`. -/
def UiRect.all (v : Val) : UiRect := ⟨v, v, v, v⟩

/-- `UiRect::default()` = `UiRect::DEFAULT` (all sides `Val::Px(0.)`). -/
def UiRect.DEFAULT : UiRect := UiRect.all (Val.px 0)

instance : Inhabited UiRect := ⟨UiRect.DEFAULT⟩

/-- A color value.  Modelled from the spec: `src/property/colors.rs` is not
under `src/`; per the spec a color is the value a named color or a hex
literal resolves to, held here as 8-bit sRGBA channels. -/
structure Color : Type where
  r : ℕ
  g : ℕ
  b : ℕ
  a : ℕ
deriving DecidableEq

/-- `Color::default()` is white in bevy. -/
instance : Inhabited Color := ⟨⟨255, 255, 255, 255⟩⟩

/-- Modelled from the spec: `colors::parse_named_color` (missing
`src/property/colors.rs`) maps CSS named colors to their color value; the
spec pins `"red"`.  Unknown names yield `none`. -/
def parse_named_color (name : String) : Option Color :=
  if name = "red" then some ⟨255, 0, 0, 255⟩
  else if name = "green" then some ⟨0, 128, 0, 255⟩
  else if name = "blue" then some ⟨0, 0, 255, 255⟩
  else if name = "black" then some ⟨0, 0, 0, 255⟩
  else if name = "white" then some ⟨255, 255, 255, 255⟩
  else none

/-- One hexadecimal digit. -/
def hexDigit (c : Char) : Option ℕ :=
  if c.isDigit then some (c.toNat - 48)
  else if 'a' ≤ c ∧ c ≤ 'f' then some (c.toNat - 87)
  else if 'A' ≤ c ∧ c ≤ 'F' then some (c.toNat - 55)
  else none

/-- Modelled from the spec: `colors::parse_hex_color` (missing
`src/property/colors.rs`) parses a CSS hex color; the token carries the
digits without the leading `#`.  Three-digit and six-digit forms are
supported, anything else yields `none`. -/
def parse_hex_color (hex : String) : Option Color :=
  match hex.toList with
  | [r1, r2, g1, g2, b1, b2] => do
    let rh ← hexDigit r1
    let rl ← hexDigit r2
    let gh ← hexDigit g1
    let gl ← hexDigit g2
    let bh ← hexDigit b1
    let bl ← hexDigit b2
    some ⟨rh * 16 + rl, gh * 16 + gl, bh * 16 + bl, 255⟩
  | [r1, g1, b1] => do
    let rh ← hexDigit r1
    let gh ← hexDigit g1
    let bh ← hexDigit b1
    some ⟨rh * 17, gh * 17, bh * 17, 255⟩
  | _ => none

/-- The per-token case of `PropertyValues::string` (the closure passed to
`find_map` in the source): a non-empty quoted string is accepted. -/
def stringToken : PropertyToken → Option String
  | .string id => if id = "" then none else some id
  | _ => none

/-- `PropertyValues::string`: `find_map` over the tokens. -/
def PropertyValues.string (v : PropertyValues) : Option String :=
  List.findSome? stringToken v

/-- The per-token case of `PropertyValues::identifier`: a non-empty plain
identifier is accepted. -/
def identifierToken : PropertyToken → Option String
  | .identifier id => if id = "" then none else some id
  | _ => none

/-- `PropertyValues::identifier`: `find_map` over the tokens. -/
def PropertyValues.identifier (v : PropertyValues) : Option String :=
  List.findSome? identifierToken v

/-- `PropertyValues::color`: only a single-token list is accepted, and only
a named-color identifier or a hash literal. -/
def PropertyValues.color (v : PropertyValues) : Option Color :=
  match v with
  | [PropertyToken.identifier name] => parse_named_color name
  | [PropertyToken.hash h] => parse_hex_color h
  | [_] => none
  | _ => none

/-- The per-token case of `PropertyValues::val` (the closure passed to
`find_map` in the source). -/
def valToken : PropertyToken → Option Val
  | .percentage v => some (Val.percent v)
  | .dimension v => some (Val.px v)
  | .vmin v => some (Val.vmin v)
  | .vmax v => some (Val.vmax v)
  | .vh v => some (Val.vh v)
  | .vw v => some (Val.vw v)
  | .identifier s => if s = "auto" then some Val.auto else none
  | _ => none

/-- `PropertyValues::val`: `find_map` over the tokens. -/
def PropertyValues.val (v : PropertyValues) : Option Val :=
  List.findSome? valToken v

/-- The per-token case of `PropertyValues::f32`. -/
def f32Token : PropertyToken → Option ℚ
  | .percentage v => some v
  | .dimension v => some v
  | .number v => some v
  | _ => none

/-- `PropertyValues::f32`: `find_map` over the tokens. -/
def PropertyValues.f32 (v : PropertyValues) : Option ℚ :=
  List.findSome? f32Token v

/-- The per-token case of `PropertyValues::option_f32`. -/
def optionF32Token : PropertyToken → Option (Option ℚ)
  | .percentage v => some (some v)
  | .dimension v => some (some v)
  | .number v => some (some v)
  | .identifier ident => if ident = "none" then some none else none
  | _ => none

/-- `PropertyValues::option_f32`: `find_map` over the tokens. -/
def PropertyValues.option_f32 (v : PropertyValues) : Option (Option ℚ) :=
  List.findSome? optionF32Token v

/-- One step of the fold inside `PropertyValues::rect`.  The inline token
match of the source coincides with `valToken`; a non-value token leaves
the accumulator unchanged (the index counts accepted tokens only). -/
def rectFoldStep (acc : Option UiRect × ℕ) (t : PropertyToken) : Option UiRect × ℕ :=
  match valToken t with
  | none => acc
  | some value =>
    let r := acc.1.getD UiRect.DEFAULT
    let r' :=
      match acc.2 with
      | 0 => { r with top := value }
      | 1 => { r with right := value }
      | 2 => { r with bottom := value }
      | 3 => { r with left := value }
      | _ + 4 => r
    (some r', acc.2 + 1)

/-- `PropertyValues::rect`: a single token is replicated on all four sides
via `UiRect::all`, otherwise values are folded in top, right, bottom, left
order. -/
def PropertyValues.rect (v : PropertyValues) : Option UiRect :=
  if v.length = 1 then (PropertyValues.val v).map UiRect.all
  else (v.foldl rectFoldStep (none, 0)).1

/-- `bevy_ui::GridTrackRepetition` (external collaborator type). -/
inductive GridTrackRepetition : Type where
  | count (n : ℤ)
  | autoFill
  | autoFit
deriving DecidableEq

/-- `TryFrom<&PropertyToken> for GridTrackRepetition` from
`src/property/mod.rs`: a number becomes a count (`as u16`), the
identifiers `auto-fill` / `auto-fit` the corresponding repetition. -/
def GridTrackRepetition.tryFrom : PropertyToken → Option GridTrackRepetition
  | .number v => some (GridTrackRepetition.count (toU16 v))
  | .identifier s =>
    if s = "auto-fill" then some GridTrackRepetition.autoFill
    else if s = "auto-fit" then some GridTrackRepetition.autoFit
    else none
  | _ => none

/-- `bevy_ui::MinTrackSizingFunction` (external collaborator type). -/
inductive MinTrackSizingFunction : Type where
  | px (v : ℚ)
  | percent (v : ℚ)
  | vmin (v : ℚ)
  | vmax (v : ℚ)
  | vh (v : ℚ)
  | vw (v : ℚ)
  | minContent
  | maxContent
  | auto
deriving DecidableEq

/-- `TryFrom<&PropertyToken> for MinTrackSizingFunction` from
`src/property/mod.rs` (a plain number is mapped to `Px`). -/
def MinTrackSizingFunction.tryFrom : PropertyToken → Option MinTrackSizingFunction
  | .number v => some (MinTrackSizingFunction.px v)
  | .percentage v => some (MinTrackSizingFunction.percent v)
  | .vmin v => some (MinTrackSizingFunction.vmin v)
  | .vmax v => some (MinTrackSizingFunction.vmax v)
  | .vh v => some (MinTrackSizingFunction.vh v)
  | .vw v => some (MinTrackSizingFunction.vw v)
  | .identifier s =>
    if s = "min-content" then some MinTrackSizingFunction.minContent
    else if s = "max-content" then some MinTrackSizingFunction.maxContent
    else if s = "auto" then some MinTrackSizingFunction.auto
    else none
  | _ => none

/-- `bevy_ui::MaxTrackSizingFunction` (external collaborator type). -/
inductive MaxTrackSizingFunction : Type where
  | px (v : ℚ)
  | percent (v : ℚ)
  | vmin (v : ℚ)
  | vmax (v : ℚ)
  | vh (v : ℚ)
  | vw (v : ℚ)
  | minContent
  | maxContent
  | auto
deriving DecidableEq

/-- `TryFrom<&PropertyToken> for MaxTrackSizingFunction` from
`src/property/mod.rs`. -/
def MaxTrackSizingFunction.tryFrom : PropertyToken → Option MaxTrackSizingFunction
  | .number v => some (MaxTrackSizingFunction.px v)
  | .percentage v => some (MaxTrackSizingFunction.percent v)
  | .vmin v => some (MaxTrackSizingFunction.vmin v)
  | .vmax v => some (MaxTrackSizingFunction.vmax v)
  | .vh v => some (MaxTrackSizingFunction.vh v)
  | .vw v => some (MaxTrackSizingFunction.vw v)
  | .identifier s =>
    if s = "min-content" then some MaxTrackSizingFunction.minContent
    else if s = "max-content" then some MaxTrackSizingFunction.maxContent
    else if s = "auto" then some MaxTrackSizingFunction.auto
    else none
  | _ => none

/-- `bevy_ui::RepeatedGridTrack`, modelled at the level of the constructor
calls the source makes (a single `GridTrack` coerces to a repetition count
of 1). -/
inductive RepeatedGridTrack : Type where
  | percent (rep : GridTrackRepetition) (v : ℚ)
  | px (rep : GridTrackRepetition) (v : ℚ)
  | fr (rep : ℤ) (v : ℚ)
  | auto (rep : ℤ)
  | fitContentPx (v : ℚ)
  | fitContentPercent (v : ℚ)
  | minmax (mn : MinTrackSizingFunction) (mx : MaxTrackSizingFunction)
deriving DecidableEq

/-- `GridTrack::percent` coerced into a `RepeatedGridTrack`. -/
def GridTrack.percent (v : ℚ) : RepeatedGridTrack :=
  RepeatedGridTrack.percent (GridTrackRepetition.count 1) v

/-- `GridTrack::px` coerced into a `RepeatedGridTrack`. -/
def GridTrack.px (v : ℚ) : RepeatedGridTrack :=
  RepeatedGridTrack.px (GridTrackRepetition.count 1) v

/-- `GridTrack::fr` coerced into a `RepeatedGridTrack`. -/
def GridTrack.fr (v : ℚ) : RepeatedGridTrack :=
  RepeatedGridTrack.fr 1 v

/-- `GridTrack::auto` coerced into a `RepeatedGridTrack`. -/
def GridTrack.auto : RepeatedGridTrack :=
  RepeatedGridTrack.auto 1

/-- `GridTrack::fit_content_px` coerced into a `RepeatedGridTrack`. -/
def GridTrack.fit_content_px (v : ℚ) : RepeatedGridTrack :=
  RepeatedGridTrack.fitContentPx v

/-- `GridTrack::fit_content_percent` coerced into a `RepeatedGridTrack`. -/
def GridTrack.fit_content_percent (v : ℚ) : RepeatedGridTrack :=
  RepeatedGridTrack.fitContentPercent v

/-- `GridTrack::minmax` coerced into a `RepeatedGridTrack`. -/
def GridTrack.minmax (mn : MinTrackSizingFunction) (mx : MaxTrackSizingFunction) :
    RepeatedGridTrack :=
  RepeatedGridTrack.minmax mn mx

/-- The per-token case of the `filter_map` inside
`PropertyValues::grid_template`, including the `repeat`, `fit-content`
and `minmax` function forms. -/
def gridTemplateToken (t : PropertyToken) : Option RepeatedGridTrack :=
  match t with
  | .percentage v => some (GridTrack.percent v)
  | .dimension v => some (GridTrack.px v)
  | .fr v => some (GridTrack.fr v)
  | .identifier s => if s = "auto" then some GridTrack.auto else none
  | .function f args =>
    if f = "repeat" then
      match args with
      | [a0, a1] =>
        match GridTrackRepetition.tryFrom a0 with
        | none => none
        | some rep =>
          match a1 with
          | .percentage v => some (RepeatedGridTrack.percent rep v)
          | .dimension v => some (RepeatedGridTrack.px rep v)
          | .fr v =>
            match rep with
            | .count n => some (RepeatedGridTrack.fr n v)
            | _ => none
          | .identifier s =>
            if s = "auto" then
              match rep with
              | .count n => some (RepeatedGridTrack.auto n)
              | _ => none
            else none
          | _ => none
      | _ => none
    else if f = "fit-content" then
      match args with
      | [a0] =>
        match a0 with
        | .dimension v => some (GridTrack.fit_content_px v)
        | .percentage v => some (GridTrack.fit_content_percent v)
        | _ => none
      | _ => none
    else if f = "minmax" then
      match args with
      | [a0, a1] =>
        match MinTrackSizingFunction.tryFrom a0, MaxTrackSizingFunction.tryFrom a1 with
        | some mn, some mx => some (GridTrack.minmax mn mx)
        | _, _ => none
      | _ => none
    else none
  | _ => none

/-- `PropertyValues::grid_template`: `Some(self.0.iter().filter_map(...)
.collect())` — the result is always `Some`, unrecognized tokens are
silently dropped. -/
def PropertyValues.grid_template (v : PropertyValues) : Option (List RepeatedGridTrack) :=
  some (v.filterMap gridTemplateToken)

/-- `bevy_ui::GridPlacement`, modelled at the level of the constructor
calls the source makes. -/
inductive GridPlacement : Type where
  | auto
  | start (line : ℤ)
  | start_end (s : ℤ) (e : ℤ)
  | end_ (line : ℤ)
  | span (c : ℤ)
  | end_span (e : ℤ) (c : ℤ)
  | start_span (s : ℤ) (c : ℤ)
deriving DecidableEq

/-- `GridPlacement::default()` = `GridPlacement::DEFAULT`, which is what
`GridPlacement::auto()` returns. -/
instance : Inhabited GridPlacement := ⟨GridPlacement.auto⟩

/-- `PropertyValues::grid_placement`: a slice-pattern match on the token
list; a guard failure on a shape falls through to the `None` arm. -/
def PropertyValues.grid_placement (v : PropertyValues) : Option GridPlacement :=
  match v with
  | [.number s] => some (GridPlacement.start (toI16 s))
  | [.number s, .slash, .number e] => some (GridPlacement.start_end (toI16 s) (toI16 e))
  | [.identifier s, .slash, .number e] =>
    if s = "auto" then some (GridPlacement.end_ (toI16 e)) else none
  | [.number s, .slash, .identifier e] =>
    if e = "auto" then some (GridPlacement.start (toI16 s)) else none
  | [.identifier s] => if s = "auto" then some GridPlacement.auto else none
  | [.identifier s, .slash, .identifier e] =>
    if s = "auto" ∧ e = "auto" then some GridPlacement.auto else none
  | [.identifier id, .number c] =>
    if id = "span" then some (GridPlacement.span (toU16 c)) else none
  | [.identifier id, .number c, .slash, .number e] =>
    if id = "span" then some (GridPlacement.end_span (toI16 e) (toU16 c)) else none
  | [.number s, .slash, .identifier id, .number c] =>
    if id = "span" then some (GridPlacement.start_span (toI16 s) (toU16 c)) else none
  | _ => none

/-- A token-list shape accepted by `PropertyValues::grid_placement`
(the nine supported slice patterns together with their guards). -/
def supportedPlacement (v : PropertyValues) : Bool :=
  match v with
  | [.number _] => true
  | [.number _, .slash, .number _] => true
  | [.identifier s, .slash, .number _] => s = "auto"
  | [.number _, .slash, .identifier e] => e = "auto"
  | [.identifier s] => s = "auto"
  | [.identifier s, .slash, .identifier e] => s = "auto" ∧ e = "auto"
  | [.identifier id, .number _] => id = "span"
  | [.identifier id, .number _, .slash, .number _] => id = "span"
  | [.number _, .slash, .identifier id, .number _] => id = "span"
  | _ => false

/-- Modelled from the spec: `src/selector.rs` is not under `src/`.  Per
§3 a selector is an equality-comparable conjunction of atoms — an
object-type name and/or class names — or the special `any` wildcard. -/
inductive SelectorElement : Type where
  | any
  | typeName (s : String)
  | cls (s : String)
deriving DecidableEq

/-- Modelled from the spec: a `Selector` is the conjunction of its
elements; two selectors are equal iff their conjunctions are equal, and
selectors are used as map keys. -/
structure Selector : Type where
  elements : List SelectorElement
deriving DecidableEq

/-- Association-list lookup, standing in for `HashMap::get` (keys are kept
unique by `assocInsert`, so first-match lookup is exact). -/
def assocFind {α β : Type} [DecidableEq α] (l : List (α × β)) (key : α) : Option β :=
  match l with
  | [] => none
  | p :: rest => if p.1 = key then some p.2 else assocFind rest key

/-- Association-list insert, standing in for `HashMap::insert`: replaces
the binding of an existing key, otherwise appends. -/
def assocInsert {α β : Type} [DecidableEq α] (l : List (α × β)) (key : α) (value : β) :
    List (α × β) :=
  match l with
  | [] => [(key, value)]
  | p :: rest => if p.1 = key then (key, value) :: rest else p :: assocInsert rest key value

/-- `StyleRule` from `src/stylesheet.rs`: a selector plus the declaration
map (`HashMap<String, PropertyValues>`, embedded as an association list
with unique keys). -/
structure StyleRule : Type where
  selector : Selector
  properties : List (String × PropertyValues)

/-- `StyleSheetAsset` from `src/stylesheet.rs`: origin path, content hash
and the parsed rules in source order. -/
structure StyleSheetAsset : Type where
  path : String
  hash : ℕ
  rules : List StyleRule

/-- `StyleSheetAsset::get_properties`: find the first rule whose selector
equals the given one, then look the declaration up by name. -/
def StyleSheetAsset.get_properties (doc : StyleSheetAsset) (selector : Selector)
    (name : String) : Option PropertyValues :=
  (doc.rules.find? (fun rule => decide (rule.selector = selector))).bind
    (fun rule => assocFind rule.properties name)

/-- `EcssError` from `src/lib.rs`. -/
inductive EcssError : Type where
  | UnsupportedSelector
  | UnsupportedProperty (name : String)
  | InvalidPropertyValue (name : String)
  | InvalidSelector
  | UnexpectedToken (token : String)
deriving DecidableEq

/-- `CacheState` from `src/property/mod.rs`: no parse attempted yet, a
parsed value, or a recorded parse failure. -/
inductive CacheState (γ : Type) : Type where
  | none
  | ok (value : γ)
  | error
deriving DecidableEq

/-- `CachedProperties` from `src/property/mod.rs`
(`HashMap<Selector, CacheState<T>>`). -/
abbrev CachedProperties (γ : Type) : Type := List (Selector × CacheState γ)

/-- `PropertyMeta` from `src/property/mod.rs`
(`HashMap<u64, CachedProperties<T::Cache>>`). -/
abbrev PropertyMeta (γ : Type) : Type := List (ℕ × CachedProperties γ)

/-- The data of a `Property` trait implementation that the cache engine
consumes: the property name and the parse function.  `γ` is the
associated `Cache` type. -/
structure Property (γ : Type) : Type where
  name : String
  parse : PropertyValues → Except EcssError γ

/-- Two-level cache lookup: document hash, then selector. -/
def lookupState {γ : Type} (meta : PropertyMeta γ) (h : ℕ) (s : Selector) :
    Option (CacheState γ) :=
  match assocFind meta h with
  | some cp => assocFind cp s
  | Option.none => Option.none

/-- Two-level cache store: `entry(hash).or_default()` followed by
`insert(selector, state)` on the inner map. -/
def setState {γ : Type} (meta : PropertyMeta γ) (h : ℕ) (s : Selector) (st : CacheState γ) :
    PropertyMeta γ :=
  match meta with
  | [] => [(h, [(s, st)])]
  | (h', cp) :: rest =>
    if h' = h then (h', assocInsert cp s st) :: rest
    else (h', cp) :: setState rest h s st

/-- `PropertyMeta::get_or_parse` from `src/property/mod.rs`.  Returns the
cache state handed back to the caller, the updated cache, and whether
`T::parse` was invoked during the call.  On a cache hit the stored state
is returned unchanged; on a miss the declaration is looked up, parsed if
present (`Ok`/`Error`), and the resulting state — `CacheState::None` when
the selector has no declaration of this property — is inserted. -/
def getOrParse {γ : Type} (P : Property γ) (meta : PropertyMeta γ)
    (rules : StyleSheetAsset) (selector : Selector) :
    CacheState γ × PropertyMeta γ × Bool :=
  match lookupState meta rules.hash selector with
  | some st => (st, meta, false)
  | Option.none =>
    match rules.get_properties selector P.name with
    | some values =>
      match P.parse values with
      | .ok cache =>
        (CacheState.ok cache, setState meta rules.hash selector (CacheState.ok cache), true)
      | .error _ => (CacheState.error, setState meta rules.hash selector CacheState.error, true)
    | Option.none =>
      (CacheState.none, setState meta rules.hash selector CacheState.none, false)

/-- Runs a sequence of `get_or_parse` calls, threading the cache. -/
def runCalls {γ : Type} (P : Property γ) (meta : PropertyMeta γ) :
    List (StyleSheetAsset × Selector) → PropertyMeta γ
  | [] => meta
  | (rules, s) :: rest => runCalls P (getOrParse P meta rules s).2.1 rest

/-- Counts, along a sequence of `get_or_parse` calls, how many of them
invoke the property's parse function for the key `(h, s)`. -/
def parseCount {γ : Type} (P : Property γ) (meta : PropertyMeta γ) (h : ℕ) (s : Selector) :
    List (StyleSheetAsset × Selector) → ℕ
  | [] => 0
  | (rules, sel) :: rest =>
    let r := getOrParse P meta rules sel
    (if rules.hash = h ∧ sel = s ∧ r.2.2 = true then 1 else 0) + parseCount P r.2.1 h s rest

/-- An ECS entity id. -/
abbrev Entity : Type := ℕ

/-- One `(asset_id, _, selected)` element of `StyleSheetState` as seen by
`Property::apply_system`: the asset lookup result (`assets.get`) and the
selected `(selector, entities)` pairs. -/
structure SheetEntry : Type where
  asset : Option StyleSheetAsset
  selected : List (Selector × List Entity)

/-- The inner loop of `Property::apply_system` for one stylesheet asset:
walk the selected `(selector, entities)` pairs, call `get_or_parse`, and
on `CacheState::Ok` apply to every entity the component query resolves
(`q_nodes.get_mut` succeeding is modelled by the `hasComponents`
predicate).  Returns the updated cache, the log of `get_or_parse` calls
as `(document hash, selector, parse invoked?)`, and the log of
`Property::apply` invocations as `(document hash, selector, entity)`. -/
def applySelected {γ : Type} (P : Property γ) (hasComponents : Entity → Bool)
    (rules : StyleSheetAsset) (meta : PropertyMeta γ) :
    List (Selector × List Entity) →
      PropertyMeta γ × List (ℕ × Selector × Bool) × List (ℕ × Selector × Entity)
  | [] => (meta, [], [])
  | (sel, entities) :: rest =>
    let r := getOrParse P meta rules sel
    let rec_ := applySelected P hasComponents rules r.2.1 rest
    let applied :=
      match r.1 with
      | CacheState.ok _ => (entities.filter hasComponents).map (fun e => (rules.hash, sel, e))
      | _ => []
    (rec_.1, (rules.hash, sel, r.2.2) :: rec_.2.1, applied ++ rec_.2.2)

/-- The outer loop of `Property::apply_system`: iterate the stylesheet
states, skipping assets that fail to resolve. -/
def applySheets {γ : Type} (P : Property γ) (hasComponents : Entity → Bool)
    (meta : PropertyMeta γ) :
    List SheetEntry →
      PropertyMeta γ × List (ℕ × Selector × Bool) × List (ℕ × Selector × Entity)
  | [] => (meta, [], [])
  | sh :: rest =>
    match sh.asset with
    | Option.none => applySheets P hasComponents meta rest
    | some rules =>
      let r1 := applySelected P hasComponents rules meta sh.selected
      let r2 := applySheets P hasComponents r1.1 rest
      (r2.1, r1.2.1 ++ r2.2.1, r1.2.2 ++ r2.2.2)

/-- `n` consecutive cycles of `Property::apply_system` over the same
stylesheet state, threading the `Local<PropertyMeta>` cache and
concatenating the logs. -/
def runCycles {γ : Type} (P : Property γ) (hasComponents : Entity → Bool)
    (sheets : List SheetEntry) :
    ℕ → PropertyMeta γ →
      PropertyMeta γ × List (ℕ × Selector × Bool) × List (ℕ × Selector × Entity)
  | 0, meta => (meta, [], [])
  | n + 1, meta =>
    let r1 := applySheets P hasComponents meta sheets
    let r2 := runCycles P hasComponents sheets n r1.1
    (r2.1, r1.2.1 ++ r2.2.1, r1.2.2 ++ r2.2.2)

/-- Counts the parse-invocation records for the key `(h, s)` in a
`get_or_parse` call log. -/
def countKey : List (ℕ × Selector × Bool) → ℕ → Selector → ℕ
  | [], _, _ => 0
  | r :: rest, h, s =>
    (if r.1 = h ∧ r.2.1 = s ∧ r.2.2 = true then 1 else 0) + countKey rest h s

/-- `bevy_ui::Display` (default `Flex`). -/
inductive Display : Type where
  | flex
  | grid
  | block
  | none
deriving DecidableEq

instance : Inhabited Display := ⟨Display.flex⟩

/-- `bevy_ui::PositionType` (default `Relative`). -/
inductive PositionType : Type where
  | relative
  | absolute
deriving DecidableEq

instance : Inhabited PositionType := ⟨PositionType.relative⟩

/-- `bevy_ui::Direction` (default `Inherit`). -/
inductive Direction : Type where
  | inherit
  | leftToRight
  | rightToLeft
deriving DecidableEq

instance : Inhabited Direction := ⟨Direction.inherit⟩

/-- `bevy_ui::FlexDirection` (default `Row`). -/
inductive FlexDirection : Type where
  | row
  | column
  | rowReverse
  | columnReverse
deriving DecidableEq

instance : Inhabited FlexDirection := ⟨FlexDirection.row⟩

/-- `bevy_ui::FlexWrap` (default `NoWrap`). -/
inductive FlexWrap : Type where
  | noWrap
  | wrap
  | wrapReverse
deriving DecidableEq

instance : Inhabited FlexWrap := ⟨FlexWrap.noWrap⟩

/-- `bevy_ui::AlignItems` (default the `Default` variant). -/
inductive AlignItems : Type where
  | default
  | flexStart
  | flexEnd
  | center
  | baseline
  | stretch
deriving DecidableEq

instance : Inhabited AlignItems := ⟨AlignItems.default⟩

/-- `bevy_ui::AlignSelf` (default `Auto`). -/
inductive AlignSelf : Type where
  | auto
  | flexStart
  | flexEnd
  | center
  | baseline
  | stretch
deriving DecidableEq

instance : Inhabited AlignSelf := ⟨AlignSelf.auto⟩

/-- `bevy_ui::AlignContent` (default the `Default` variant). -/
inductive AlignContent : Type where
  | default
  | flexStart
  | flexEnd
  | center
  | stretch
  | spaceBetween
  | spaceAround
deriving DecidableEq

instance : Inhabited AlignContent := ⟨AlignContent.default⟩

/-- `bevy_ui::JustifyContent` (default the `Default` variant). -/
inductive JustifyContent : Type where
  | default
  | flexStart
  | flexEnd
  | center
  | spaceBetween
  | spaceAround
  | spaceEvenly
deriving DecidableEq

instance : Inhabited JustifyContent := ⟨JustifyContent.default⟩

/-- `bevy_ui::OverflowAxis` (default `Visible`). -/
inductive OverflowAxis : Type where
  | visible
  | clip
deriving DecidableEq

instance : Inhabited OverflowAxis := ⟨OverflowAxis.visible⟩

/-- `bevy_ui::Overflow`. -/
structure Overflow : Type where
  x : OverflowAxis
  y : OverflowAxis
deriving DecidableEq

/-- The fields of `bevy_ui::Style` targeted by the property
implementations in `src/property/impls.rs`. -/
structure Style : Type where
  display : Display
  position_type : PositionType
  direction : Direction
  flex_direction : FlexDirection
  flex_wrap : FlexWrap
  align_items : AlignItems
  align_self : AlignSelf
  align_content : AlignContent
  justify_content : JustifyContent
  overflow : Overflow
  left : Val
  right : Val
  top : Val
  bottom : Val
  width : Val
  height : Val
  min_width : Val
  min_height : Val
  max_width : Val
  max_height : Val
  flex_basis : Val
  flex_grow : ℚ
  flex_shrink : ℚ
  row_gap : Val
  column_gap : Val
  aspect_ratio : Option ℚ
  grid_template_columns : List RepeatedGridTrack
  grid_template_rows : List RepeatedGridTrack
  grid_row : GridPlacement
  grid_column : GridPlacement
  margin : UiRect
  padding : UiRect
  border : UiRect
deriving DecidableEq

/-- `impl_style_single_value` apply body with `$do_default = true`:
`components.field = cache.cloned().unwrap_or_default()`, here for
`LeftProperty` (field `left`). -/
def LeftProperty.apply (cache : Option Val) (s : Style) : Style :=
  { s with left := cache.getD default }

/-- `RightProperty::apply` (field `right`). -/
def RightProperty.apply (cache : Option Val) (s : Style) : Style :=
  { s with right := cache.getD default }

/-- `TopProperty::apply` (field `top`). -/
def TopProperty.apply (cache : Option Val) (s : Style) : Style :=
  { s with top := cache.getD default }

/-- `BottomProperty::apply` (field `bottom`). -/
def BottomProperty.apply (cache : Option Val) (s : Style) : Style :=
  { s with bottom := cache.getD default }

/-- `WidthProperty::apply` (field `width`). -/
def WidthProperty.apply (cache : Option Val) (s : Style) : Style :=
  { s with width := cache.getD default }

/-- `HeightProperty::apply` (field `height`). -/
def HeightProperty.apply (cache : Option Val) (s : Style) : Style :=
  { s with height := cache.getD default }

/-- `MinWidthProperty::apply` (field `min_width`). -/
def MinWidthProperty.apply (cache : Option Val) (s : Style) : Style :=
  { s with min_width := cache.getD default }

/-- `MinHeightProperty::apply` (field `min_height`). -/
def MinHeightProperty.apply (cache : Option Val) (s : Style) : Style :=
  { s with min_height := cache.getD default }

/-- `MaxWidthProperty::apply` (field `max_width`). -/
def MaxWidthProperty.apply (cache : Option Val) (s : Style) : Style :=
  { s with max_width := cache.getD default }

/-- `MaxHeightProperty::apply` (field `max_height`). -/
def MaxHeightProperty.apply (cache : Option Val) (s : Style) : Style :=
  { s with max_height := cache.getD default }

/-- `FlexBasisProperty::apply` (field `flex_basis`). -/
def FlexBasisProperty.apply (cache : Option Val) (s : Style) : Style :=
  { s with flex_basis := cache.getD default }

/-- `FlexGrowProperty::apply` (field `flex_grow`, `f32` defaults to 0). -/
def FlexGrowProperty.apply (cache : Option ℚ) (s : Style) : Style :=
  { s with flex_grow := cache.getD 0 }

/-- `FlexShrinkProperty::apply` (field `flex_shrink`). -/
def FlexShrinkProperty.apply (cache : Option ℚ) (s : Style) : Style :=
  { s with flex_shrink := cache.getD 0 }

/-- `RowGapProperty::apply` (field `row_gap`). -/
def RowGapProperty.apply (cache : Option Val) (s : Style) : Style :=
  { s with row_gap := cache.getD default }

/-- `ColumnGapProperty::apply` (field `column_gap`). -/
def ColumnGapProperty.apply (cache : Option Val) (s : Style) : Style :=
  { s with column_gap := cache.getD default }

/-- `AspectRatioProperty::apply` (field `aspect_ratio`, defaults `None`). -/
def AspectRatioProperty.apply (cache : Option (Option ℚ)) (s : Style) : Style :=
  { s with aspect_ratio := cache.getD Option.none }

/-- `GridTemplateColumns::apply` (field `grid_template_columns`, a `Vec`
defaults to empty). -/
def GridTemplateColumns.apply (cache : Option (List RepeatedGridTrack)) (s : Style) : Style :=
  { s with grid_template_columns := cache.getD [] }

/-- `GridTemplateRows::apply` (field `grid_template_rows`). -/
def GridTemplateRows.apply (cache : Option (List RepeatedGridTrack)) (s : Style) : Style :=
  { s with grid_template_rows := cache.getD [] }

/-- `GridRow::apply` (field `grid_row`). -/
def GridRow.apply (cache : Option GridPlacement) (s : Style) : Style :=
  { s with grid_row := cache.getD default }

/-- `GridColumn::apply` (field `grid_column`). -/
def GridColumn.apply (cache : Option GridPlacement) (s : Style) : Style :=
  { s with grid_column := cache.getD default }

/-- `impl_style_enum` apply body:
`components.field = cache.copied().unwrap_or_default()`, here
`DisplayProperty`. -/
def DisplayProperty.apply (cache : Option Display) (s : Style) : Style :=
  { s with display := cache.getD default }

/-- `PositionTypeProperty::apply`. -/
def PositionTypeProperty.apply (cache : Option PositionType) (s : Style) : Style :=
  { s with position_type := cache.getD default }

/-- `DirectionProperty::apply`. -/
def DirectionProperty.apply (cache : Option Direction) (s : Style) : Style :=
  { s with direction := cache.getD default }

/-- `FlexDirectionProperty::apply`. -/
def FlexDirectionProperty.apply (cache : Option FlexDirection) (s : Style) : Style :=
  { s with flex_direction := cache.getD default }

/-- `FlexWrapProperty::apply`. -/
def FlexWrapProperty.apply (cache : Option FlexWrap) (s : Style) : Style :=
  { s with flex_wrap := cache.getD default }

/-- `AlignItemsProperty::apply`. -/
def AlignItemsProperty.apply (cache : Option AlignItems) (s : Style) : Style :=
  { s with align_items := cache.getD default }

/-- `AlignSelfProperty::apply`. -/
def AlignSelfProperty.apply (cache : Option AlignSelf) (s : Style) : Style :=
  { s with align_self := cache.getD default }

/-- `AlignContentProperty::apply`. -/
def AlignContentProperty.apply (cache : Option AlignContent) (s : Style) : Style :=
  { s with align_content := cache.getD default }

/-- `JustifyContentProperty::apply`. -/
def JustifyContentProperty.apply (cache : Option JustifyContent) (s : Style) : Style :=
  { s with justify_content := cache.getD default }

/-- `OverflowAxisXProperty::apply` (field `overflow.x`). -/
def OverflowAxisXProperty.apply (cache : Option OverflowAxis) (s : Style) : Style :=
  { s with overflow := { s.overflow with x := cache.getD default } }

/-- `OverflowAxisYProperty::apply` (field `overflow.y`). -/
def OverflowAxisYProperty.apply (cache : Option OverflowAxis) (s : Style) : Style :=
  { s with overflow := { s.overflow with y := cache.getD default } }

/-- `impl_style_rect` apply body:
`components.field = cache.copied().unwrap_or_default()`, here
`MarginProperty` (field `margin`). -/
def MarginProperty.apply (cache : Option UiRect) (s : Style) : Style :=
  { s with margin := cache.getD default }

/-- `PaddingProperty::apply` (field `padding`). -/
def PaddingProperty.apply (cache : Option UiRect) (s : Style) : Style :=
  { s with padding := cache.getD default }

/-- `BorderProperty::apply` (field `border`). -/
def BorderProperty.apply (cache : Option UiRect) (s : Style) : Style :=
  { s with border := cache.getD default }

/-- `impl_style_single_value` apply body with `$do_default = false`
(the per-edge rect overrides): only a `Some` cache writes the field,
here `MarginTopProperty` (field `margin.top`). -/
def MarginTopProperty.apply (cache : Option Val) (s : Style) : Style :=
  match cache with
  | Option.none => s
  | some v => { s with margin := { s.margin with top := v } }

/-- `MarginBottomProperty::apply` (field `margin.bottom`). -/
def MarginBottomProperty.apply (cache : Option Val) (s : Style) : Style :=
  match cache with
  | Option.none => s
  | some v => { s with margin := { s.margin with bottom := v } }

/-- `MarginLeftProperty::apply` (field `margin.left`). -/
def MarginLeftProperty.apply (cache : Option Val) (s : Style) : Style :=
  match cache with
  | Option.none => s
  | some v => { s with margin := { s.margin with left := v } }

/-- `MarginRightProperty::apply` (field `margin.right`). -/
def MarginRightProperty.apply (cache : Option Val) (s : Style) : Style :=
  match cache with
  | Option.none => s
  | some v => { s with margin := { s.margin with right := v } }

/-- `PaddingTopProperty::apply` (field `padding.top`). -/
def PaddingTopProperty.apply (cache : Option Val) (s : Style) : Style :=
  match cache with
  | Option.none => s
  | some v => { s with padding := { s.padding with top := v } }

/-- `BorderTopProperty::apply` (field `border.top`). -/
def BorderTopProperty.apply (cache : Option Val) (s : Style) : Style :=
  match cache with
  | Option.none => s
  | some v => { s with border := { s.border with top := v } }

/-- `bevy_ui::BorderRadius` (default all corners `Val::Px(0.)`). -/
structure BorderRadius : Type where
  top_left : Val
  top_right : Val
  bottom_left : Val
  bottom_right : Val
deriving DecidableEq

instance : Inhabited BorderRadius := ⟨⟨Val.px 0, Val.px 0, Val.px 0, Val.px 0⟩⟩

/-- `BorderRadiusProperty::apply` from `src/property/impls.rs`:
`*components = cache.copied().unwrap_or_default()` — a whole-component
overwrite. -/
def BorderRadiusProperty.apply (cache : Option BorderRadius) (_ : BorderRadius) :
    BorderRadius :=
  cache.getD default

/-- `bevy_text::JustifyText` (default `Left`). -/
inductive JustifyText : Type where
  | left
  | center
  | right
  | justified
deriving DecidableEq

/-- One `TextSection`, keeping the style fields the properties touch. -/
structure TextSection : Type where
  value : String
  color : Color
  font_size : ℚ
deriving DecidableEq

/-- `bevy_text::Text`, keeping the fields the properties touch. -/
structure Text : Type where
  sections : List TextSection
  justify : JustifyText
deriving DecidableEq

/-- `FontColorProperty::apply`: writes the cached color (or the default,
white) into every section. -/
def FontColorProperty.apply (cache : Option Color) (t : Text) : Text :=
  { t with sections := t.sections.map (fun sec => { sec with color := cache.getD default }) }

/-- `TextStyle::default().font_size` in bevy. -/
def textStyleDefaultFontSize : ℚ := 24

/-- `FontSizeProperty::apply`: writes the cached size (or the `TextStyle`
default) into every section. -/
def FontSizeProperty.apply (cache : Option ℚ) (t : Text) : Text :=
  { t with
    sections := t.sections.map
      (fun sec => { sec with font_size := cache.getD textStyleDefaultFontSize }) }

/-- `TextContentProperty::apply`: a `Some` cache overwrites every
section's value. -/
def TextContentProperty.apply (cache : Option String) (t : Text) : Text :=
  match cache with
  | Option.none => t
  | some c => { t with sections := t.sections.map (fun sec => { sec with value := c }) }

/-- `TextAlignProperty::parse` from `src/property/impls.rs`: only the
identifiers `left`, `center`, `right` parse, always to a `Some` cache;
everything else is an `InvalidPropertyValue` error. -/
def TextAlignProperty.parse (values : PropertyValues) :
    Except EcssError (Option JustifyText) :=
  match PropertyValues.identifier values with
  | some ident =>
    if ident = "left" then Except.ok (some JustifyText.left)
    else if ident = "center" then Except.ok (some JustifyText.center)
    else if ident = "right" then Except.ok (some JustifyText.right)
    else Except.error (EcssError.InvalidPropertyValue "text-align")
  | Option.none => Except.error (EcssError.InvalidPropertyValue "text-align")

/-- `TextAlignProperty::apply` from `src/property/impls.rs`:
`cache.copied().unwrap_or(Some(JustifyText::Left)).expect(...)`.  The
`expect` panic is embedded as `Option.none` of the whole application. -/
def TextAlignProperty.apply (cache : Option (Option JustifyText)) (t : Text) : Option Text :=
  match cache.getD (some JustifyText.left) with
  | some j => some { t with justify := j }
  | Option.none => Option.none

/-- `BackgroundColorProperty::apply`: the query item is a pair of optional
components (`BackgroundColor` color, `UiImage` color); each present
component is overwritten with the cached color or the default. -/
def BackgroundColorProperty.apply (cache : Option Color)
    (comps : Option Color × Option Color) : Option Color × Option Color :=
  (comps.1.map (fun _ => cache.getD default), comps.2.map (fun _ => cache.getD default))

/-- `find_map` returns `none` exactly when no element is accepted. -/
theorem findSome_eq_none_iff {α β : Type} (f : α → Option β) (l : List α) :
    List.findSome? f l = Option.none ↔ ∀ a ∈ l, f a = Option.none := by
  induction l with
  | nil => simp [List.findSome?]
  | cons a rest ih =>
    cases ha : f a with
    | none => simp [List.findSome?, ha, ih]
    | some b => simp [List.findSome?, ha]

/-- `find_map` returns the image of the first accepted element. -/
theorem findSome_first {α β : Type} (f : α → Option β) (pre post : List α) (t : α) (b : β)
    (hpre : ∀ u ∈ pre, f u = Option.none) (ht : f t = some b) :
    List.findSome? f (pre ++ t :: post) = some b := by
  induction pre with
  | nil => simp [List.findSome?, ht]
  | cons a rest ih =>
    have ha : f a = Option.none := hpre a (by simp)
    simpa [List.findSome?, ha] using ih (fun u hu => hpre u (by simp [hu]))

/-- `find?` skips a prefix on which the predicate fails. -/
theorem find_append_of_none {α : Type} (p : α → Bool) (pre post : List α)
    (hpre : ∀ x ∈ pre, p x = false) :
    List.find? p (pre ++ post) = List.find? p post := by
  induction pre with
  | nil => simp
  | cons a rest ih =>
    have ha : p a = false := hpre a (by simp)
    simpa [List.find?, ha] using ih (fun x hx => hpre x (by simp [hx]))

/-- Inserting a key makes it found. -/
theorem assocFind_insert_self {α β : Type} [DecidableEq α] (l : List (α × β)) (k : α) (v : β) :
    assocFind (assocInsert l k v) k = some v := by
  induction l with
  | nil => simp [assocInsert, assocFind]
  | cons p rest ih =>
    by_cases hp : p.1 = k
    · simp [assocInsert, hp, assocFind]
    · simp [assocInsert, hp, assocFind, ih]

/-- Inserting a key leaves other keys unchanged. -/
theorem assocFind_insert_other {α β : Type} [DecidableEq α] (l : List (α × β)) (k k' : α)
    (v : β) (hk : k' ≠ k) :
    assocFind (assocInsert l k v) k' = assocFind l k' := by
  induction l with
  | nil => simp [assocInsert, assocFind, Ne.symm hk]
  | cons p rest ih =>
    by_cases hp : p.1 = k
    · simp [assocInsert, hp, assocFind, Ne.symm hk]
    · simp [assocInsert, hp, assocFind, ih]

/-- Storing a cache state makes it the stored state of its key. -/
theorem lookupState_set_self {γ : Type} (m : PropertyMeta γ) (h : ℕ) (s : Selector)
    (st : CacheState γ) :
    lookupState (setState m h s st) h s = some st := by
  induction m with
  | nil => simp [setState, lookupState, assocFind, assocInsert]
  | cons p rest ih =>
    obtain ⟨hm, cp⟩ := p
    by_cases hh : hm = h
    · subst hh
      simp [setState, lookupState, assocFind, assocFind_insert_self]
    · simpa [setState, hh, lookupState, assocFind] using ih

/-- Storing a cache state leaves every other key's stored state
unchanged. -/
theorem lookupState_set_other {γ : Type} (m : PropertyMeta γ) (h : ℕ) (s : Selector)
    (st : CacheState γ) (h' : ℕ) (s' : Selector) (hne : ¬(h' = h ∧ s' = s)) :
    lookupState (setState m h s st) h' s' = lookupState m h' s' := by
  induction m with
  | nil =>
    by_cases hh : h = h'
    · subst hh
      have hs : ¬s = s' := fun e => hne ⟨rfl, e.symm⟩
      simp [setState, lookupState, assocFind, hs]
    · simp [setState, lookupState, assocFind, hh]
  | cons p rest ih =>
    obtain ⟨hm, cp⟩ := p
    by_cases hh : hm = h
    · subst hh
      by_cases hh' : hm = h'
      · subst hh'
        have hs : ¬s = s' := fun e => hne ⟨rfl, e.symm⟩
        simp [setState, lookupState, assocFind, assocFind_insert_other _ _ _ _
          (fun e => hs e.symm)]
      · simp [setState, lookupState, assocFind, hh']
    · by_cases hh' : hm = h'
      · subst hh'
        simp [setState, hh, lookupState, assocFind]
      · simpa [setState, hh, lookupState, assocFind, hh'] using ih

/-- A cache hit returns the stored state, mutates nothing, and does not
invoke parse. -/
theorem getOrParse_hit {γ : Type} (P : Property γ) (m : PropertyMeta γ)
    (rules : StyleSheetAsset) (sel : Selector) (st : CacheState γ)
    (hm : lookupState m rules.hash sel = some st) :
    getOrParse P m rules sel = (st, m, false) := by
  simp [getOrParse, hm]

/-- After any `get_or_parse` call, the call's own key holds the state the
call returned. -/
theorem getOrParse_after {γ : Type} (P : Property γ) (m : PropertyMeta γ)
    (rules : StyleSheetAsset) (sel : Selector) :
    lookupState (getOrParse P m rules sel).2.1 rules.hash sel =
      some (getOrParse P m rules sel).1 := by
  cases hm : lookupState m rules.hash sel with
  | some st => simp [getOrParse, hm]
  | none =>
    cases hg : rules.get_properties sel P.name with
    | some values =>
      cases hp : P.parse values with
      | ok c => simp [getOrParse, hm, hg, hp, lookupState_set_self]
      | error e => simp [getOrParse, hm, hg, hp, lookupState_set_self]
    | none => simp [getOrParse, hm, hg, lookupState_set_self]

/-- A stored state survives any later `get_or_parse` call unchanged. -/
theorem getOrParse_frame {γ : Type} (P : Property γ) (m : PropertyMeta γ)
    (rules : StyleSheetAsset) (sel : Selector) (h : ℕ) (s : Selector) (st : CacheState γ)
    (hm : lookupState m h s = some st) :
    lookupState (getOrParse P m rules sel).2.1 h s = some st := by
  cases hm' : lookupState m rules.hash sel with
  | some st' => simpa [getOrParse, hm'] using hm
  | none =>
    have hne : ¬(h = rules.hash ∧ s = sel) := by
      rintro ⟨rfl, rfl⟩
      rw [hm] at hm'
      exact Option.noConfusion hm'
    cases hg : rules.get_properties sel P.name with
    | some values =>
      cases hp : P.parse values with
      | ok c => simpa [getOrParse, hm', hg, hp, lookupState_set_other _ _ _ _ _ _ hne] using hm
      | error e =>
        simpa [getOrParse, hm', hg, hp, lookupState_set_other _ _ _ _ _ _ hne] using hm
    | none => simpa [getOrParse, hm', hg, lookupState_set_other _ _ _ _ _ _ hne] using hm

/-- Parse is invoked only on a cache miss. -/
theorem getOrParse_invoked {γ : Type} (P : Property γ) (m : PropertyMeta γ)
    (rules : StyleSheetAsset) (sel : Selector)
    (hinv : (getOrParse P m rules sel).2.2 = true) :
    lookupState m rules.hash sel = Option.none := by
  cases hm : lookupState m rules.hash sel with
  | none => rfl
  | some st =>
    rw [getOrParse_hit P m rules sel st hm] at hinv
    exact Bool.noConfusion hinv

/-- A stored state survives any later sequence of `get_or_parse` calls. -/
theorem runCalls_frame {γ : Type} (P : Property γ)
    (calls : List (StyleSheetAsset × Selector)) (m : PropertyMeta γ) (h : ℕ) (s : Selector)
    (st : CacheState γ) (hm : lookupState m h s = some st) :
    lookupState (runCalls P m calls) h s = some st := by
  induction calls generalizing m with
  | nil => simpa [runCalls] using hm
  | cons c rest ih =>
    obtain ⟨rules, sel⟩ := c
    exact ih _ (getOrParse_frame P m rules sel h s st hm)

/-- Once a key is present in the cache, no later call in a sequence ever
invokes parse for it. -/
theorem parseCount_of_present {γ : Type} (P : Property γ)
    (calls : List (StyleSheetAsset × Selector)) (m : PropertyMeta γ) (h : ℕ) (s : Selector)
    (st : CacheState γ) (hm : lookupState m h s = some st) :
    parseCount P m h s calls = 0 := by
  induction calls generalizing m st with
  | nil => rfl
  | cons c rest ih =>
    obtain ⟨rules, sel⟩ := c
    by_cases hkey : rules.hash = h ∧ sel = s
    · obtain ⟨rfl, rfl⟩ := hkey
      rw [parseCount, getOrParse_hit P m rules sel st hm]
      simpa using ih _ st hm
    · rw [parseCount]
      have hrec := ih ((getOrParse P m rules sel).2.1) st
        (getOrParse_frame P m rules sel h s st hm)
      simp only [hrec]
      have : ¬(rules.hash = h ∧ sel = s ∧ (getOrParse P m rules sel).2.2 = true) := by
        rintro ⟨h1, h2, _⟩
        exact hkey ⟨h1, h2⟩
      simp [this]

/-- Along any sequence of `get_or_parse` calls, parse runs at most once
per `(document hash, selector)` key. -/
theorem parseCount_le_one {γ : Type} (P : Property γ)
    (calls : List (StyleSheetAsset × Selector)) (m : PropertyMeta γ) (h : ℕ) (s : Selector) :
    parseCount P m h s calls ≤ 1 := by
  induction calls generalizing m with
  | nil => simp [parseCount]
  | cons c rest ih =>
    obtain ⟨rules, sel⟩ := c
    rw [parseCount]
    by_cases hfire : rules.hash = h ∧ sel = s ∧ (getOrParse P m rules sel).2.2 = true
    · obtain ⟨rfl, rfl, hinv⟩ := hfire
      have hafter := getOrParse_after P m rules sel
      have hrest := parseCount_of_present P rest ((getOrParse P m rules sel).2.1)
        rules.hash sel _ hafter
      simp [hinv, hrest]
    · simpa [hfire] using ih ((getOrParse P m rules sel).2.1)

/-- `runCalls` splits over a concatenation of call sequences. -/
theorem runCalls_append {γ : Type} (P : Property γ)
    (t1 t2 : List (StyleSheetAsset × Selector)) (m : PropertyMeta γ) :
    runCalls P m (t1 ++ t2) = runCalls P (runCalls P m t1) t2 := by
  induction t1 generalizing m with
  | nil => simp [runCalls]
  | cons c rest ih =>
    obtain ⟨rules, sel⟩ := c
    simp [runCalls, ih]

/-- `parseCount` splits over a concatenation of call sequences. -/
theorem parseCount_append {γ : Type} (P : Property γ)
    (t1 t2 : List (StyleSheetAsset × Selector)) (m : PropertyMeta γ) (h : ℕ) (s : Selector) :
    parseCount P m h s (t1 ++ t2) =
      parseCount P m h s t1 + parseCount P (runCalls P m t1) h s t2 := by
  induction t1 generalizing m with
  | nil => simp [parseCount, runCalls]
  | cons c rest ih =>
    obtain ⟨rules, sel⟩ := c
    simp [parseCount, runCalls, ih, Nat.add_assoc]

/-- `countKey` splits over a concatenation of logs. -/
theorem countKey_append (l1 l2 : List (ℕ × Selector × Bool)) (h : ℕ) (s : Selector) :
    countKey (l1 ++ l2) h s = countKey l1 h s + countKey l2 h s := by
  induction l1 with
  | nil => simp [countKey]
  | cons r rest ih => simp [countKey, ih, Nat.add_assoc]

/-- The sequence of `get_or_parse` calls one `apply_system` cycle makes. -/
def sheetTrace : List SheetEntry → List (StyleSheetAsset × Selector)
  | [] => []
  | sh :: rest =>
    (match sh.asset with
     | Option.none => []
     | some rules => sh.selected.map (fun p => (rules, p.1))) ++ sheetTrace rest

/-- The sequence of `get_or_parse` calls `n` cycles make. -/
def cyclesTrace (sheets : List SheetEntry) : ℕ → List (StyleSheetAsset × Selector)
  | 0 => []
  | n + 1 => sheetTrace sheets ++ cyclesTrace sheets n

/-- The per-asset loop evolves the cache exactly like the corresponding
plain call sequence, and its parse log counts like `parseCount`. -/
theorem applySelected_bridge {γ : Type} (P : Property γ) (hc : Entity → Bool)
    (rules : StyleSheetAsset) (selected : List (Selector × List Entity))
    (m : PropertyMeta γ) (h : ℕ) (s : Selector) :
    (applySelected P hc rules m selected).1 =
        runCalls P m (selected.map (fun p => (rules, p.1))) ∧
      countKey (applySelected P hc rules m selected).2.1 h s =
        parseCount P m h s (selected.map (fun p => (rules, p.1))) := by
  induction selected generalizing m with
  | nil => simp [applySelected, runCalls, countKey, parseCount]
  | cons p rest ih =>
    obtain ⟨sel, entities⟩ := p
    obtain ⟨ih1, ih2⟩ := ih ((getOrParse P m rules sel).2.1)
    constructor
    · simpa [applySelected, runCalls] using ih1
    · simp [applySelected, runCalls, countKey, parseCount, ih2]

/-- The sheet loop evolves the cache exactly like its call trace, and its
parse log counts like `parseCount` of that trace. -/
theorem applySheets_bridge {γ : Type} (P : Property γ) (hc : Entity → Bool)
    (sheets : List SheetEntry) (m : PropertyMeta γ) (h : ℕ) (s : Selector) :
    (applySheets P hc m sheets).1 = runCalls P m (sheetTrace sheets) ∧
      countKey (applySheets P hc m sheets).2.1 h s =
        parseCount P m h s (sheetTrace sheets) := by
  induction sheets generalizing m with
  | nil => simp [applySheets, sheetTrace, runCalls, countKey, parseCount]
  | cons sh rest ih =>
    cases ha : sh.asset with
    | none =>
      obtain ⟨ih1, ih2⟩ := ih m
      constructor
      · simpa [applySheets, ha, sheetTrace, runCalls] using ih1
      · simpa [applySheets, ha, sheetTrace, countKey, parseCount] using ih2
    | some rules =>
      obtain ⟨b1, b2⟩ := applySelected_bridge P hc rules sh.selected m h s
      obtain ⟨ih1, ih2⟩ := ih ((applySelected P hc rules m sh.selected).1)
      rw [b1] at ih1 ih2
      constructor
      · simp [applySheets, ha, sheetTrace, runCalls_append, b1, ih1]
      · simp [applySheets, ha, sheetTrace, countKey_append, parseCount_append, b1, b2, ih2]

/-- `n` cycles evolve the cache exactly like the `n`-fold call trace, and
their parse log counts like `parseCount` of that trace. -/
theorem runCycles_bridge {γ : Type} (P : Property γ) (hc : Entity → Bool)
    (sheets : List SheetEntry) (n : ℕ) (m : PropertyMeta γ) (h : ℕ) (s : Selector) :
    (runCycles P hc sheets n m).1 = runCalls P m (cyclesTrace sheets n) ∧
      countKey (runCycles P hc sheets n m).2.1 h s =
        parseCount P m h s (cyclesTrace sheets n) := by
  induction n generalizing m with
  | zero => simp [runCycles, cyclesTrace, runCalls, countKey, parseCount]
  | succ k ih =>
    obtain ⟨b1, b2⟩ := applySheets_bridge P hc sheets m h s
    obtain ⟨ih1, ih2⟩ := ih ((applySheets P hc m sheets).1)
    rw [b1] at ih1 ih2
    constructor
    · simp [runCycles, cyclesTrace, runCalls_append, b1, ih1]
    · simp [runCycles, cyclesTrace, countKey_append, parseCount_append, b1, b2, ih2]

/-- The cache key of a failing declaration holds either nothing or the
sticky error state. -/
def errInv {γ : Type} (rules : StyleSheetAsset) (s : Selector) (m : PropertyMeta γ) : Prop :=
  lookupState m rules.hash s = Option.none ∨
    lookupState m rules.hash s = some CacheState.error

/-- Under a failing declaration, a `get_or_parse` call on its key returns
the error state and leaves the key holding the sticky error. -/
theorem getOrParse_err_state {γ : Type} (P : Property γ) (rules : StyleSheetAsset)
    (s : Selector) (v : PropertyValues) (err : EcssError)
    (hdecl : rules.get_properties s P.name = some v)
    (herr : P.parse v = Except.error err)
    (m : PropertyMeta γ) (hinv : errInv rules s m) :
    (getOrParse P m rules s).1 = CacheState.error ∧
      lookupState (getOrParse P m rules s).2.1 rules.hash s = some CacheState.error := by
  rcases hinv with hnone | herror
  · constructor
    · simp [getOrParse, hnone, hdecl, herr]
    · simp [getOrParse, hnone, hdecl, herr, lookupState_set_self]
  · rw [getOrParse_hit P m rules s CacheState.error herror]
    exact ⟨rfl, herror⟩

/-- Under a failing declaration, any `get_or_parse` call on the same
document preserves the error invariant of its key. -/
theorem getOrParse_err_preserve {γ : Type} (P : Property γ) (rules : StyleSheetAsset)
    (s : Selector) (v : PropertyValues) (err : EcssError)
    (hdecl : rules.get_properties s P.name = some v)
    (herr : P.parse v = Except.error err)
    (m : PropertyMeta γ) (hinv : errInv rules s m) (sel : Selector) :
    errInv rules s (getOrParse P m rules sel).2.1 := by
  by_cases hsel : sel = s
  · subst hsel
    exact Or.inr (getOrParse_err_state P rules sel v err hdecl herr m hinv).2
  · cases hm : lookupState m rules.hash sel with
    | some st =>
      rw [getOrParse_hit P m rules sel st hm]
      exact hinv
    | none =>
      have hne : ¬(rules.hash = rules.hash ∧ s = sel) := by
        rintro ⟨_, rfl⟩
        exact hsel rfl
      rcases hinv with hnone | herror
      · refine Or.inl ?_
        cases hg : rules.get_properties sel P.name with
        | some values =>
          cases hp : P.parse values with
          | ok c => simpa [getOrParse, hm, hg, hp, lookupState_set_other _ _ _ _ _ _ hne]
              using hnone
          | error e => simpa [getOrParse, hm, hg, hp, lookupState_set_other _ _ _ _ _ _ hne]
              using hnone
        | none => simpa [getOrParse, hm, hg, lookupState_set_other _ _ _ _ _ _ hne] using hnone
      · refine Or.inr ?_
        cases hg : rules.get_properties sel P.name with
        | some values =>
          cases hp : P.parse values with
          | ok c => simpa [getOrParse, hm, hg, hp, lookupState_set_other _ _ _ _ _ _ hne]
              using herror
          | error e => simpa [getOrParse, hm, hg, hp, lookupState_set_other _ _ _ _ _ _ hne]
              using herror
        | none => simpa [getOrParse, hm, hg, lookupState_set_other _ _ _ _ _ _ hne] using herror

/-- Under a failing declaration, the per-asset loop never applies for the
failing selector and preserves the error invariant. -/
theorem applySelected_err {γ : Type} (P : Property γ) (hc : Entity → Bool)
    (rules : StyleSheetAsset) (s : Selector) (v : PropertyValues) (err : EcssError)
    (hdecl : rules.get_properties s P.name = some v)
    (herr : P.parse v = Except.error err)
    (selected : List (Selector × List Entity)) (m : PropertyMeta γ)
    (hinv : errInv rules s m) :
    (∀ rec ∈ (applySelected P hc rules m selected).2.2, rec.2.1 ≠ s) ∧
      errInv rules s (applySelected P hc rules m selected).1 := by
  induction selected generalizing m with
  | nil => exact ⟨by simp [applySelected], hinv⟩
  | cons p rest ih =>
    obtain ⟨sel, entities⟩ := p
    have hnext := getOrParse_err_preserve P rules s v err hdecl herr m hinv sel
    obtain ⟨ih1, ih2⟩ := ih ((getOrParse P m rules sel).2.1) hnext
    refine ⟨?_, ih2⟩
    intro rec hrec
    by_cases hsel : sel = s
    · subst hsel
      have hstate := (getOrParse_err_state P rules sel v err hdecl herr m hinv).1
      rw [applySelected] at hrec
      simp only [hstate] at hrec
      simp only [List.mem_append] at hrec
      rcases hrec with habs | hrest
      · cases habs
      · exact ih1 rec hrest
    · rw [applySelected] at hrec
      simp only [List.mem_append] at hrec
      rcases hrec with happ | hrest
      · cases hst : (getOrParse P m rules sel).1 with
        | ok c =>
          simp only [hst, List.mem_map] at happ
          obtain ⟨e, _, rfl⟩ := happ
          exact hsel
        | none => simp [hst] at happ
        | error => simp [hst] at happ
      · exact ih1 rec hrest

/-- Under a failing declaration, the sheet loop — over sheet entries all
resolving to the failing document (or to nothing) — never applies for the
failing selector and preserves the error invariant. -/
theorem applySheets_err {γ : Type} (P : Property γ) (hc : Entity → Bool)
    (rules : StyleSheetAsset) (s : Selector) (v : PropertyValues) (err : EcssError)
    (hdecl : rules.get_properties s P.name = some v)
    (herr : P.parse v = Except.error err)
    (sheets : List SheetEntry)
    (hsheets : ∀ sh ∈ sheets, sh.asset = Option.none ∨ sh.asset = some rules)
    (m : PropertyMeta γ) (hinv : errInv rules s m) :
    (∀ rec ∈ (applySheets P hc m sheets).2.2, rec.2.1 ≠ s) ∧
      errInv rules s (applySheets P hc m sheets).1 := by
  induction sheets generalizing m with
  | nil => exact ⟨by simp [applySheets], hinv⟩
  | cons sh rest ih =>
    have hrest : ∀ sh' ∈ rest, sh'.asset = Option.none ∨ sh'.asset = some rules :=
      fun sh' hsh' => hsheets sh' (by simp [hsh'])
    rcases hsheets sh (by simp) with ha | ha
    · obtain ⟨ih1, ih2⟩ := ih hrest m hinv
      refine ⟨?_, ?_⟩
      · intro rec hrec
        rw [applySheets] at hrec
        simp only [ha] at hrec
        exact ih1 rec hrec
      · rw [applySheets]
        simpa [ha] using ih2
    · obtain ⟨s1, s2⟩ := applySelected_err P hc rules s v err hdecl herr sh.selected m hinv
      obtain ⟨ih1, ih2⟩ := ih hrest ((applySelected P hc rules m sh.selected).1) s2
      refine ⟨?_, ?_⟩
      · intro rec hrec
        rw [applySheets] at hrec
        simp only [ha, List.mem_append] at hrec
        rcases hrec with h1 | h2
        · exact s1 rec h1
        · exact ih1 rec h2
      · rw [applySheets]
        simpa [ha] using ih2

/-- Under a failing declaration, any number of `apply_system` cycles never
applies for the failing selector and preserves the error invariant. -/
theorem runCycles_err {γ : Type} (P : Property γ) (hc : Entity → Bool)
    (rules : StyleSheetAsset) (s : Selector) (v : PropertyValues) (err : EcssError)
    (hdecl : rules.get_properties s P.name = some v)
    (herr : P.parse v = Except.error err)
    (sheets : List SheetEntry)
    (hsheets : ∀ sh ∈ sheets, sh.asset = Option.none ∨ sh.asset = some rules)
    (n : ℕ) (m : PropertyMeta γ) (hinv : errInv rules s m) :
    (∀ rec ∈ (runCycles P hc sheets n m).2.2, rec.2.1 ≠ s) ∧
      errInv rules s (runCycles P hc sheets n m).1 := by
  induction n generalizing m with
  | zero => exact ⟨by simp [runCycles], hinv⟩
  | succ k ih =>
    obtain ⟨s1, s2⟩ := applySheets_err P hc rules s v err hdecl herr sheets hsheets m hinv
    obtain ⟨ih1, ih2⟩ := ih ((applySheets P hc m sheets).1) s2
    refine ⟨?_, ?_⟩
    · intro rec hrec
      rw [runCycles] at hrec
      simp only [List.mem_append] at hrec
      rcases hrec with h1 | h2
      · exact s1 rec h1
      · exact ih1 rec h2
    · rw [runCycles]
      exact ih2

/-- Under a failing declaration, the per-asset loop stores the sticky
error state as soon as the failing selector is processed. -/
theorem applySelected_err_stores {γ : Type} (P : Property γ) (hc : Entity → Bool)
    (rules : StyleSheetAsset) (s : Selector) (v : PropertyValues) (err : EcssError)
    (hdecl : rules.get_properties s P.name = some v)
    (herr : P.parse v = Except.error err)
    (selected : List (Selector × List Entity)) (es : List Entity) (m : PropertyMeta γ)
    (hinv : errInv rules s m) (hmem : (s, es) ∈ selected) :
    lookupState (applySelected P hc rules m selected).1 rules.hash s =
      some CacheState.error := by
  induction selected generalizing m with
  | nil => cases hmem
  | cons p rest ih =>
    obtain ⟨sel, entities⟩ := p
    rcases List.mem_cons.mp hmem with hhead | htail
    · obtain ⟨rfl, rfl⟩ := Prod.mk.injEq .. ▸ hhead
      have hstate := (getOrParse_err_state P rules s v err hdecl herr m hinv).2
      have hb := (applySelected_bridge P hc rules rest
        ((getOrParse P m rules s).2.1) rules.hash s).1
      rw [applySelected]
      simp only
      rw [hb]
      exact runCalls_frame P _ _ rules.hash s _ hstate
    · have hnext := getOrParse_err_preserve P rules s v err hdecl herr m hinv sel
      rw [applySelected]
      simp only
      exact ih ((getOrParse P m rules sel).2.1) hnext htail

/-- Under a failing declaration, the sheet loop stores the sticky error
state as soon as some sheet entry resolves to the document and selects the
failing selector. -/
theorem applySheets_err_stores {γ : Type} (P : Property γ) (hc : Entity → Bool)
    (rules : StyleSheetAsset) (s : Selector) (v : PropertyValues) (err : EcssError)
    (hdecl : rules.get_properties s P.name = some v)
    (herr : P.parse v = Except.error err)
    (sheets : List SheetEntry)
    (hsheets : ∀ sh ∈ sheets, sh.asset = Option.none ∨ sh.asset = some rules)
    (m : PropertyMeta γ) (hinv : errInv rules s m)
    (hmem : ∃ sh ∈ sheets, sh.asset = some rules ∧ ∃ es, (s, es) ∈ sh.selected) :
    lookupState (applySheets P hc m sheets).1 rules.hash s = some CacheState.error := by
  induction sheets generalizing m with
  | nil =>
    obtain ⟨sh, hsh, _⟩ := hmem
    cases hsh
  | cons sh rest ih =>
    have hrest : ∀ sh' ∈ rest, sh'.asset = Option.none ∨ sh'.asset = some rules :=
      fun sh' hsh' => hsheets sh' (by simp [hsh'])
    obtain ⟨sh', hsh', hasset, es, hes⟩ := hmem
    rcases List.mem_cons.mp hsh' with rfl | htail
    · rw [applySheets]
      simp only [hasset]
      have hstored := applySelected_err_stores P hc rules s v err hdecl herr
        sh'.selected es m hinv hes
      have hb := (applySheets_bridge P hc rest
        ((applySelected P hc rules m sh'.selected).1) rules.hash s).1
      rw [hb]
      exact runCalls_frame P _ _ rules.hash s _ hstored
    · rcases hsheets sh (by simp) with ha | ha
      · rw [applySheets]
        simp only [ha]
        exact ih hrest m hinv ⟨sh', htail, hasset, es, hes⟩
      · have s2 := (applySelected_err P hc rules s v err hdecl herr sh.selected m hinv).2
        rw [applySheets]
        simp only [ha]
        exact ih hrest ((applySelected P hc rules m sh.selected).1) s2 ⟨sh', htail, hasset, es, hes⟩

/-- Under a failing declaration, at least one cycle over a sheet state
selecting the failing selector leaves the sticky error stored. -/
theorem runCycles_err_stores {γ : Type} (P : Property γ) (hc : Entity → Bool)
    (rules : StyleSheetAsset) (s : Selector) (v : PropertyValues) (err : EcssError)
    (hdecl : rules.get_properties s P.name = some v)
    (herr : P.parse v = Except.error err)
    (sheets : List SheetEntry)
    (hsheets : ∀ sh ∈ sheets, sh.asset = Option.none ∨ sh.asset = some rules)
    (n : ℕ) (m : PropertyMeta γ) (hinv : errInv rules s m)
    (hmem : ∃ sh ∈ sheets, sh.asset = some rules ∧ ∃ es, (s, es) ∈ sh.selected) :
    lookupState (runCycles P hc sheets (n + 1) m).1 rules.hash s =
      some CacheState.error := by
  have hstored := applySheets_err_stores P hc rules s v err hdecl herr sheets hsheets
    m hinv hmem
  have hb := (runCycles_bridge P hc sheets n ((applySheets P hc m sheets).1) rules.hash s).1
  rw [runCycles]
  simp only
  rw [hb]
  exact runCalls_frame P _ _ rules.hash s _ hstored

/-- `FontSizeProperty::parse` from `src/property/impls.rs`. -/
def FontSizeProperty.parse (values : PropertyValues) : Except EcssError ℚ :=
  match PropertyValues.f32 values with
  | some size => Except.ok size
  | Option.none => Except.error (EcssError.InvalidPropertyValue "font-size")

/-- `FontSizeProperty` packaged as the data the cache engine consumes. -/
def fontSizeContract : Property ℚ :=
  ⟨"font-size", FontSizeProperty.parse⟩

/-- Sample selector `a`. -/
def selA : Selector := ⟨[SelectorElement.typeName "a"]⟩

/-- Sample selector `.b`. -/
def selB : Selector := ⟨[SelectorElement.cls "b"]⟩

/-- Sample rule `a { font-size: 16; }`. -/
def ruleA : StyleRule := ⟨selA, [("font-size", [PropertyToken.number 16])]⟩

/-- A second rule with the same selector, `a { font-size: 99; }`. -/
def ruleA2 : StyleRule := ⟨selA, [("font-size", [PropertyToken.number 99])]⟩

/-- Sample document holding `ruleA` only. -/
def docA : StyleSheetAsset := ⟨"sheet.css", 7, [ruleA]⟩

/-- Sample document holding two rules with an equal selector. -/
def docDup : StyleSheetAsset := ⟨"dup.css", 3, [ruleA, ruleA2]⟩

/-- A rule whose `font-size` declaration cannot be parsed. -/
def ruleBad : StyleRule := ⟨selA, [("font-size", [PropertyToken.string "bad"])]⟩

/-- A document whose `font-size` declaration under `selA` fails to parse. -/
def docBad : StyleSheetAsset := ⟨"bad.css", 9, [ruleBad]⟩

/-- A well-formed document colliding with `docBad`'s hash. -/
def docGood9 : StyleSheetAsset := ⟨"good.css", 9, [ruleA]⟩

/-- C1: across any sequence of `get_or_parse` calls a property's parse
function runs at most once per `(document hash, selector)` pair, and a
lookup whose key is already stored returns the stored cache state
unchanged without invoking parse. -/
theorem claim1_parse_at_most_once :
    (∀ (γ : Type) (P : Property γ) (h : ℕ) (s : Selector)
        (calls : List (StyleSheetAsset × Selector)),
      parseCount P [] h s calls ≤ 1) ∧
    (∀ (γ : Type) (P : Property γ) (m : PropertyMeta γ) (rules : StyleSheetAsset)
        (sel : Selector) (st : CacheState γ),
      lookupState m rules.hash sel = some st →
      getOrParse P m rules sel = (st, m, false)) :=
  ⟨fun _ P h s calls => parseCount_le_one P calls [] h s,
   fun _ P m rules sel st hm => getOrParse_hit P m rules sel st hm⟩

/-- Witness for C1: a concrete trace that looks the same key up three
times parses at most once, and a concrete hit returns the stored state. -/
theorem claim1_witness :
    parseCount fontSizeContract [] 7 selA [(docA, selA), (docA, selA), (docA, selA)] ≤ 1 ∧
    getOrParse fontSizeContract (setState [] 7 selA (CacheState.ok 16)) docA selA =
      (CacheState.ok 16, setState [] 7 selA (CacheState.ok 16), false) :=
  ⟨claim1_parse_at_most_once.1 ℚ fontSizeContract 7 selA _,
   claim1_parse_at_most_once.2 ℚ fontSizeContract _ docA selA (CacheState.ok 16) rfl⟩

/-- C2: a stored cache state survives any later sequence of
`get_or_parse` calls unchanged (`Ok`/`Error` are never overwritten — a
parse error is sticky), and the only transition from an absent key is to
the state determined by the declaration lookup and the parse result. -/
theorem claim2_cache_state_sticky :
    (∀ (γ : Type) (P : Property γ) (m : PropertyMeta γ) (h : ℕ) (s : Selector)
        (st : CacheState γ) (calls : List (StyleSheetAsset × Selector)),
      lookupState m h s = some st →
      lookupState (runCalls P m calls) h s = some st) ∧
    (∀ (γ : Type) (P : Property γ) (m : PropertyMeta γ) (rules : StyleSheetAsset)
        (s : Selector),
      lookupState m rules.hash s = Option.none →
      lookupState (getOrParse P m rules s).2.1 rules.hash s =
        some (match rules.get_properties s P.name with
              | some values =>
                match P.parse values with
                | Except.ok c => CacheState.ok c
                | Except.error _ => CacheState.error
              | Option.none => CacheState.none)) := by
  constructor
  · intro γ P m h s st calls hm
    exact runCalls_frame P calls m h s st hm
  · intro γ P m rules s hm
    cases hg : rules.get_properties s P.name with
    | some values =>
      cases hp : P.parse values with
      | ok c => simp [getOrParse, hm, hg, hp, lookupState_set_self]
      | error e => simp [getOrParse, hm, hg, hp, lookupState_set_self]
    | none => simp [getOrParse, hm, hg, lookupState_set_self]

/-- Witness for C2: a stored error state survives a later lookup by a
same-hash document that would parse fine, and a fresh failing key
transitions to the error state. -/
theorem claim2_witness :
    lookupState
        (runCalls fontSizeContract (setState [] 9 selA CacheState.error)
          [(docBad, selA), (docGood9, selA)]) 9 selA = some CacheState.error ∧
    lookupState (getOrParse fontSizeContract [] docBad selA).2.1 9 selA =
      some CacheState.error :=
  ⟨claim2_cache_state_sticky.1 ℚ fontSizeContract _ 9 selA CacheState.error _ rfl,
   claim2_cache_state_sticky.2 ℚ fontSizeContract [] docBad selA rfl⟩

/-- C3: `get_properties` consults exactly the first rule in source order
whose selector equals the queried one (later equal-selector rules are
shadowed), and returns `none` when no rule's selector matches. -/
theorem claim3_first_rule_wins :
    (∀ (path : String) (h : ℕ) (pre post : List StyleRule) (r : StyleRule)
        (s : Selector) (n : String),
      (∀ r' ∈ pre, r'.selector ≠ s) → r.selector = s →
      StyleSheetAsset.get_properties ⟨path, h, pre ++ r :: post⟩ s n =
        assocFind r.properties n) ∧
    (∀ (doc : StyleSheetAsset) (s : Selector) (n : String),
      (∀ r' ∈ doc.rules, r'.selector ≠ s) →
      StyleSheetAsset.get_properties doc s n = Option.none) := by
  constructor
  · intro path h pre post r s n hpre hr
    unfold StyleSheetAsset.get_properties
    have hfind : List.find? (fun rule => decide (rule.selector = s)) (pre ++ r :: post) =
        List.find? (fun rule => decide (rule.selector = s)) (r :: post) :=
      find_append_of_none _ pre (r :: post)
        (fun x hx => decide_eq_false (hpre x hx))
    simp only [hfind, List.find?, decide_eq_true_eq]
    simp [hr]
  · intro doc s n hall
    unfold StyleSheetAsset.get_properties
    have hfind : List.find? (fun rule => decide (rule.selector = s)) doc.rules =
        Option.none :=
      List.find?_eq_none.mpr (fun x hx => by simpa using hall x hx)
    simp [hfind]

/-- Witness for C3: in a document with two equal-selector rules the first
one is consulted, and an unmatched selector yields `none`. -/
theorem claim3_witness :
    StyleSheetAsset.get_properties docDup selA "font-size" =
        some [PropertyToken.number 16] ∧
    StyleSheetAsset.get_properties docA selB "font-size" = Option.none :=
  ⟨claim3_first_rule_wins.1 "dup.css" 3 [] [ruleA2] ruleA selA "font-size"
      (by intro r' hr'; cases hr') rfl,
   claim3_first_rule_wins.2 docA selB "font-size"
      (by
        intro r' hr'
        rcases List.mem_singleton.mp hr' with rfl
        decide)⟩

/-- C4: when a property's parse of the declared values of a document's
selector fails, running any number of `apply_system` cycles over sheet
states resolving to that document (starting from a fresh cache) never
invokes `apply` for that selector, retries parse at most once for the
`(document hash, selector)` key, and — as soon as a cycle has processed
the selector — leaves the sticky `Error` state stored. -/
theorem claim4_error_sticky_no_apply :
    ∀ (γ : Type) (P : Property γ) (rules : StyleSheetAsset) (s : Selector)
      (v : PropertyValues) (err : EcssError),
      rules.get_properties s P.name = some v →
      P.parse v = Except.error err →
      ∀ (sheets : List SheetEntry) (hc : Entity → Bool) (n : ℕ),
        (∀ sh ∈ sheets, sh.asset = Option.none ∨ sh.asset = some rules) →
        (∀ rec ∈ (runCycles P hc sheets n []).2.2, rec.2.1 ≠ s) ∧
        countKey (runCycles P hc sheets n []).2.1 rules.hash s ≤ 1 ∧
        ((∃ sh ∈ sheets, sh.asset = some rules ∧ ∃ es, (s, es) ∈ sh.selected) →
          1 ≤ n →
          lookupState (runCycles P hc sheets n []).1 rules.hash s =
            some CacheState.error) := by
  intro γ P rules s v err hdecl herr sheets hc n hsheets
  have hinv0 : errInv rules s ([] : PropertyMeta γ) := Or.inl rfl
  refine ⟨?_, ?_, ?_⟩
  · exact (runCycles_err P hc rules s v err hdecl herr sheets hsheets n [] hinv0).1
  · rw [(runCycles_bridge P hc sheets n [] rules.hash s).2]
    exact parseCount_le_one P _ [] rules.hash s
  · intro hmem hn
    cases n with
    | zero => cases hn
    | succ k =>
      exact runCycles_err_stores P hc rules s v err hdecl herr sheets hsheets k []
        hinv0 hmem

/-- Witness for C4: two cycles over a sheet state selecting the failing
selector of `docBad` produce no apply record for it, at most one parse
attempt, and leave the sticky error stored. -/
theorem claim4_witness :
    (∀ rec ∈ (runCycles fontSizeContract (fun _ => true)
        [⟨some docBad, [(selA, [1, 2])]⟩] 2 []).2.2, rec.2.1 ≠ selA) ∧
    countKey (runCycles fontSizeContract (fun _ => true)
        [⟨some docBad, [(selA, [1, 2])]⟩] 2 []).2.1 9 selA ≤ 1 ∧
    ((∃ sh ∈ ([⟨some docBad, [(selA, [1, 2])]⟩] : List SheetEntry),
        sh.asset = some docBad ∧ ∃ es, (selA, es) ∈ sh.selected) →
      1 ≤ 2 →
      lookupState (runCycles fontSizeContract (fun _ => true)
          [⟨some docBad, [(selA, [1, 2])]⟩] 2 []).1 9 selA =
        some CacheState.error) :=
  claim4_error_sticky_no_apply ℚ fontSizeContract docBad selA
    [PropertyToken.string "bad"] (EcssError.InvalidPropertyValue "font-size")
    rfl rfl [⟨some docBad, [(selA, [1, 2])]⟩] (fun _ => true) 2
    (by
      intro sh hsh
      rcases List.mem_singleton.mp hsh with rfl
      exact Or.inr rfl)

/-- Once the rect fold has produced a rectangle it never drops back to
`none`. -/
theorem rectFold_some (ts : List PropertyToken) (r : UiRect) (idx : ℕ) :
    (ts.foldl rectFoldStep (some r, idx)).1 ≠ Option.none := by
  induction ts generalizing r idx with
  | nil => simp
  | cons t rest ih =>
    cases hv : valToken t with
    | none => simpa [List.foldl, rectFoldStep, hv] using ih r idx
    | some v => simpa [List.foldl, rectFoldStep, hv] using ih _ (idx + 1)

/-- The rect fold yields `none` exactly when no token is a value token. -/
theorem rectFold_none_iff (ts : List PropertyToken) (idx : ℕ) :
    (ts.foldl rectFoldStep (Option.none, idx)).1 = Option.none ↔
      ∀ t ∈ ts, valToken t = Option.none := by
  induction ts generalizing idx with
  | nil => simp
  | cons t rest ih =>
    cases hv : valToken t with
    | none => simp [List.foldl, rectFoldStep, hv, ih]
    | some v =>
      simp only [List.foldl, rectFoldStep, hv]
      constructor
      · intro habs
        exact absurd habs (rectFold_some rest _ _)
      · intro hall
        have := hall t (by simp)
        rw [this] at hv
        cases hv

/-- `rect` yields `none` exactly when no token is a value token. -/
theorem rect_eq_none_iff (ts : PropertyValues) :
    PropertyValues.rect ts = Option.none ↔ ∀ t ∈ ts, valToken t = Option.none := by
  unfold PropertyValues.rect
  by_cases hl : ts.length = 1
  · simp [hl, Option.map_eq_none', PropertyValues.val, findSome_eq_none_iff]
  · simp [hl, rectFold_none_iff]

/-- `grid_placement` yields `none` on every token shape outside the nine
supported slice patterns. -/
theorem grid_placement_unsupported (ts : PropertyValues)
    (h : supportedPlacement ts = false) :
    PropertyValues.grid_placement ts = Option.none := by
  unfold PropertyValues.grid_placement
  split <;> simp_all [supportedPlacement]

/-- `color` yields `none` on every token count other than one. -/
theorem color_len_ne_one (ts : PropertyValues) (h : ts.length ≠ 1) :
    PropertyValues.color ts = Option.none := by
  cases ts with
  | nil => rfl
  | cons t rest =>
    cases rest with
    | nil => simp at h
    | cons t2 rest2 => cases t <;> rfl

/-- C5 counterexample: `grid_template` on a token list that contains no
expected shape returns `Some` of the empty track list, not `None`. -/
theorem claim5_counterexample :
    PropertyValues.grid_template [PropertyToken.string "x"] = some [] ∧
    PropertyValues.grid_template [PropertyToken.string "x"] ≠ Option.none := by
  exact ⟨rfl, by simp [PropertyValues.grid_template]⟩

/-- C5 (amended): every single-value interpreter — string, identifier,
val, f32, option_f32, rect — returns `none` exactly when no token of the
accepted shape is present; grid_placement returns `none` on every token
shape outside its supported list; color returns `none` on any token count
other than one and on any single function token such as `rgba(...)`,
while the identifier `red` and the hash literal `ff0000` resolve to the
same color; `grid_template`, by contrast, never returns `none` — it
returns `Some` of the recognized tracks, dropping unrecognized tokens. -/
theorem claim5_interpreters_amended :
    (∀ ts : PropertyValues,
      PropertyValues.string ts = Option.none ↔ ∀ t ∈ ts, stringToken t = Option.none) ∧
    (∀ ts : PropertyValues,
      PropertyValues.identifier ts = Option.none ↔
        ∀ t ∈ ts, identifierToken t = Option.none) ∧
    (∀ ts : PropertyValues,
      PropertyValues.val ts = Option.none ↔ ∀ t ∈ ts, valToken t = Option.none) ∧
    (∀ ts : PropertyValues,
      PropertyValues.f32 ts = Option.none ↔ ∀ t ∈ ts, f32Token t = Option.none) ∧
    (∀ ts : PropertyValues,
      PropertyValues.option_f32 ts = Option.none ↔
        ∀ t ∈ ts, optionF32Token t = Option.none) ∧
    (∀ ts : PropertyValues,
      PropertyValues.rect ts = Option.none ↔ ∀ t ∈ ts, valToken t = Option.none) ∧
    (∀ ts : PropertyValues, ts.length ≠ 1 →
      PropertyValues.color ts = Option.none) ∧
    (∀ (name : String) (args : List PropertyToken),
      PropertyValues.color [PropertyToken.function name args] = Option.none) ∧
    (PropertyValues.color [PropertyToken.identifier "red"] = some ⟨255, 0, 0, 255⟩ ∧
      PropertyValues.color [PropertyToken.hash "ff0000"] = some ⟨255, 0, 0, 255⟩) ∧
    (∀ ts : PropertyValues, supportedPlacement ts = false →
      PropertyValues.grid_placement ts = Option.none) ∧
    (∀ ts : PropertyValues, PropertyValues.grid_template ts ≠ Option.none) := by
  refine ⟨?_, ?_, ?_, ?_, ?_, rect_eq_none_iff, color_len_ne_one, ?_, ⟨?_, ?_⟩,
    grid_placement_unsupported, ?_⟩
  · intro ts
    exact findSome_eq_none_iff stringToken ts
  · intro ts
    exact findSome_eq_none_iff identifierToken ts
  · intro ts
    exact findSome_eq_none_iff valToken ts
  · intro ts
    exact findSome_eq_none_iff f32Token ts
  · intro ts
    exact findSome_eq_none_iff optionF32Token ts
  · intro name args
    rfl
  · decide
  · decide
  · intro ts
    simp [PropertyValues.grid_template]

/-- Witness for C5 (amended): a functional `rgba(...)` form yields no
color, a token list with no accepted token makes the string interpreter
yield `none`, a two-token list yields no color, and an unsupported
placement shape yields no grid placement. -/
theorem claim5_amended_witness :
    PropertyValues.color [PropertyToken.function "rgba"
        [PropertyToken.number 255, PropertyToken.number 0, PropertyToken.number 0,
          PropertyToken.number 255]] = Option.none ∧
    PropertyValues.string [PropertyToken.number 3] = Option.none ∧
    PropertyValues.color [PropertyToken.number 1, PropertyToken.number 2] =
      Option.none ∧
    PropertyValues.grid_placement [PropertyToken.slash] = Option.none :=
  ⟨claim5_interpreters_amended.2.2.2.2.2.2.2.1 "rgba" _,
   (claim5_interpreters_amended.1 [PropertyToken.number 3]).mpr (by
      intro t ht
      rcases List.mem_singleton.mp ht with rfl
      rfl),
   claim5_interpreters_amended.2.2.2.2.2.2.1
     [PropertyToken.number 1, PropertyToken.number 2] (by decide),
   claim5_interpreters_amended.2.2.2.2.2.2.2.2.2.1 [PropertyToken.slash] rfl⟩

/-- C6: the rectangle interpreter replicates a single length on all four
sides; four values are assigned in top, right, bottom, left order
(`[10px, 5%, 2px, 1px]` ⇒ top 10px, right 5%, bottom 2px, left 1px); and
other counts assign best-effort with unassigned sides keeping the default
value. -/
theorem claim6_rect_assignment :
    (∀ a : ℚ, PropertyValues.rect [PropertyToken.dimension a] =
      some (UiRect.all (Val.px a))) ∧
    (∀ a b c d : ℚ,
      PropertyValues.rect [PropertyToken.dimension a, PropertyToken.percentage b,
          PropertyToken.dimension c, PropertyToken.dimension d] =
        some ⟨Val.px d, Val.percent b, Val.px a, Val.px c⟩) ∧
    (PropertyValues.rect [PropertyToken.dimension 10, PropertyToken.percentage 5,
        PropertyToken.dimension 2, PropertyToken.dimension 1] =
      some ⟨Val.px 1, Val.percent 5, Val.px 10, Val.px 2⟩) ∧
    (∀ a b : ℚ,
      PropertyValues.rect [PropertyToken.dimension a, PropertyToken.percentage b] =
        some { UiRect.DEFAULT with top := Val.px a, right := Val.percent b }) ∧
    (∀ a b c : ℚ,
      PropertyValues.rect [PropertyToken.dimension a, PropertyToken.percentage b,
          PropertyToken.dimension c] =
        some { UiRect.DEFAULT with
          top := Val.px a, right := Val.percent b, bottom := Val.px c }) :=
  ⟨fun _ => rfl, fun _ _ _ _ => rfl, rfl, fun _ _ => rfl, fun _ _ _ => rfl⟩

/-- C7: the grid placement interpreter maps `[1]` to start at line 1,
`[span, 2]` to a span of 2 tracks, `[auto, /, 4]` to end at line 4, and
returns `none` on every token shape outside its supported list. -/
theorem claim7_grid_placement :
    (∀ n : ℚ, PropertyValues.grid_placement [PropertyToken.number n] =
      some (GridPlacement.start (toI16 n))) ∧
    (PropertyValues.grid_placement [PropertyToken.number 1] =
      some (GridPlacement.start 1)) ∧
    (PropertyValues.grid_placement
        [PropertyToken.identifier "span", PropertyToken.number 2] =
      some (GridPlacement.span 2)) ∧
    (PropertyValues.grid_placement
        [PropertyToken.identifier "auto", PropertyToken.slash, PropertyToken.number 4] =
      some (GridPlacement.end_ 4)) ∧
    (∀ ts : PropertyValues, supportedPlacement ts = false →
      PropertyValues.grid_placement ts = Option.none) := by
  exact ⟨fun _ => rfl, by decide, by decide, by decide, grid_placement_unsupported⟩

/-- Witness for C7: a concrete unsupported token shape yields `none`. -/
theorem claim7_witness :
    PropertyValues.grid_placement [PropertyToken.string "x"] = Option.none :=
  claim7_grid_placement.2.2.2.2 [PropertyToken.string "x"] rfl

/-- Maps of a function that is idempotent pointwise are idempotent. -/
theorem map_idem {α : Type} (f : α → α) (hf : ∀ x, f (f x) = f x) (l : List α) :
    (l.map f).map f = l.map f := by
  induction l with
  | nil => rfl
  | cons a rest ih => simp [hf, ih]

/-- C8: property application is a pure overwrite, so applying the same
cached value twice yields the same component state as applying it once —
stated for every `apply` implementation embedded from
`src/property/impls.rs` (the `impl_style_single_value`,
`impl_style_rect` and `impl_style_enum` families, the per-edge
overrides, `BorderRadiusProperty`, the text properties and
`BackgroundColorProperty`). -/
theorem claim8_apply_idempotent :
    (∀ (c : Option Val) (s : Style),
      LeftProperty.apply c (LeftProperty.apply c s) = LeftProperty.apply c s) ∧
    (∀ (c : Option Val) (s : Style),
      RightProperty.apply c (RightProperty.apply c s) = RightProperty.apply c s) ∧
    (∀ (c : Option Val) (s : Style),
      TopProperty.apply c (TopProperty.apply c s) = TopProperty.apply c s) ∧
    (∀ (c : Option Val) (s : Style),
      BottomProperty.apply c (BottomProperty.apply c s) = BottomProperty.apply c s) ∧
    (∀ (c : Option Val) (s : Style),
      WidthProperty.apply c (WidthProperty.apply c s) = WidthProperty.apply c s) ∧
    (∀ (c : Option Val) (s : Style),
      HeightProperty.apply c (HeightProperty.apply c s) = HeightProperty.apply c s) ∧
    (∀ (c : Option Val) (s : Style),
      MinWidthProperty.apply c (MinWidthProperty.apply c s) = MinWidthProperty.apply c s) ∧
    (∀ (c : Option Val) (s : Style),
      MinHeightProperty.apply c (MinHeightProperty.apply c s) =
        MinHeightProperty.apply c s) ∧
    (∀ (c : Option Val) (s : Style),
      MaxWidthProperty.apply c (MaxWidthProperty.apply c s) = MaxWidthProperty.apply c s) ∧
    (∀ (c : Option Val) (s : Style),
      MaxHeightProperty.apply c (MaxHeightProperty.apply c s) =
        MaxHeightProperty.apply c s) ∧
    (∀ (c : Option Val) (s : Style),
      FlexBasisProperty.apply c (FlexBasisProperty.apply c s) =
        FlexBasisProperty.apply c s) ∧
    (∀ (c : Option ℚ) (s : Style),
      FlexGrowProperty.apply c (FlexGrowProperty.apply c s) = FlexGrowProperty.apply c s) ∧
    (∀ (c : Option ℚ) (s : Style),
      FlexShrinkProperty.apply c (FlexShrinkProperty.apply c s) =
        FlexShrinkProperty.apply c s) ∧
    (∀ (c : Option Val) (s : Style),
      RowGapProperty.apply c (RowGapProperty.apply c s) = RowGapProperty.apply c s) ∧
    (∀ (c : Option Val) (s : Style),
      ColumnGapProperty.apply c (ColumnGapProperty.apply c s) =
        ColumnGapProperty.apply c s) ∧
    (∀ (c : Option (Option ℚ)) (s : Style),
      AspectRatioProperty.apply c (AspectRatioProperty.apply c s) =
        AspectRatioProperty.apply c s) ∧
    (∀ (c : Option (List RepeatedGridTrack)) (s : Style),
      GridTemplateColumns.apply c (GridTemplateColumns.apply c s) =
        GridTemplateColumns.apply c s) ∧
    (∀ (c : Option (List RepeatedGridTrack)) (s : Style),
      GridTemplateRows.apply c (GridTemplateRows.apply c s) =
        GridTemplateRows.apply c s) ∧
    (∀ (c : Option GridPlacement) (s : Style),
      GridRow.apply c (GridRow.apply c s) = GridRow.apply c s) ∧
    (∀ (c : Option GridPlacement) (s : Style),
      GridColumn.apply c (GridColumn.apply c s) = GridColumn.apply c s) ∧
    (∀ (c : Option Display) (s : Style),
      DisplayProperty.apply c (DisplayProperty.apply c s) = DisplayProperty.apply c s) ∧
    (∀ (c : Option PositionType) (s : Style),
      PositionTypeProperty.apply c (PositionTypeProperty.apply c s) =
        PositionTypeProperty.apply c s) ∧
    (∀ (c : Option Direction) (s : Style),
      DirectionProperty.apply c (DirectionProperty.apply c s) =
        DirectionProperty.apply c s) ∧
    (∀ (c : Option FlexDirection) (s : Style),
      FlexDirectionProperty.apply c (FlexDirectionProperty.apply c s) =
        FlexDirectionProperty.apply c s) ∧
    (∀ (c : Option FlexWrap) (s : Style),
      FlexWrapProperty.apply c (FlexWrapProperty.apply c s) = FlexWrapProperty.apply c s) ∧
    (∀ (c : Option AlignItems) (s : Style),
      AlignItemsProperty.apply c (AlignItemsProperty.apply c s) =
        AlignItemsProperty.apply c s) ∧
    (∀ (c : Option AlignSelf) (s : Style),
      AlignSelfProperty.apply c (AlignSelfProperty.apply c s) =
        AlignSelfProperty.apply c s) ∧
    (∀ (c : Option AlignContent) (s : Style),
      AlignContentProperty.apply c (AlignContentProperty.apply c s) =
        AlignContentProperty.apply c s) ∧
    (∀ (c : Option JustifyContent) (s : Style),
      JustifyContentProperty.apply c (JustifyContentProperty.apply c s) =
        JustifyContentProperty.apply c s) ∧
    (∀ (c : Option OverflowAxis) (s : Style),
      OverflowAxisXProperty.apply c (OverflowAxisXProperty.apply c s) =
        OverflowAxisXProperty.apply c s) ∧
    (∀ (c : Option OverflowAxis) (s : Style),
      OverflowAxisYProperty.apply c (OverflowAxisYProperty.apply c s) =
        OverflowAxisYProperty.apply c s) ∧
    (∀ (c : Option UiRect) (s : Style),
      MarginProperty.apply c (MarginProperty.apply c s) = MarginProperty.apply c s) ∧
    (∀ (c : Option UiRect) (s : Style),
      PaddingProperty.apply c (PaddingProperty.apply c s) = PaddingProperty.apply c s) ∧
    (∀ (c : Option UiRect) (s : Style),
      BorderProperty.apply c (BorderProperty.apply c s) = BorderProperty.apply c s) ∧
    (∀ (c : Option Val) (s : Style),
      MarginTopProperty.apply c (MarginTopProperty.apply c s) =
        MarginTopProperty.apply c s) ∧
    (∀ (c : Option Val) (s : Style),
      MarginBottomProperty.apply c (MarginBottomProperty.apply c s) =
        MarginBottomProperty.apply c s) ∧
    (∀ (c : Option Val) (s : Style),
      MarginLeftProperty.apply c (MarginLeftProperty.apply c s) =
        MarginLeftProperty.apply c s) ∧
    (∀ (c : Option Val) (s : Style),
      MarginRightProperty.apply c (MarginRightProperty.apply c s) =
        MarginRightProperty.apply c s) ∧
    (∀ (c : Option Val) (s : Style),
      PaddingTopProperty.apply c (PaddingTopProperty.apply c s) =
        PaddingTopProperty.apply c s) ∧
    (∀ (c : Option Val) (s : Style),
      BorderTopProperty.apply c (BorderTopProperty.apply c s) =
        BorderTopProperty.apply c s) ∧
    (∀ (c : Option BorderRadius) (br : BorderRadius),
      BorderRadiusProperty.apply c (BorderRadiusProperty.apply c br) =
        BorderRadiusProperty.apply c br) ∧
    (∀ (c : Option Color) (t : Text),
      FontColorProperty.apply c (FontColorProperty.apply c t) =
        FontColorProperty.apply c t) ∧
    (∀ (c : Option ℚ) (t : Text),
      FontSizeProperty.apply c (FontSizeProperty.apply c t) = FontSizeProperty.apply c t) ∧
    (∀ (c : Option String) (t : Text),
      TextContentProperty.apply c (TextContentProperty.apply c t) =
        TextContentProperty.apply c t) ∧
    (∀ (c : Option Color) (comps : Option Color × Option Color),
      BackgroundColorProperty.apply c (BackgroundColorProperty.apply c comps) =
        BackgroundColorProperty.apply c comps) := by
  refine ⟨fun _ _ => rfl, fun _ _ => rfl, fun _ _ => rfl, fun _ _ => rfl, fun _ _ => rfl,
    fun _ _ => rfl, fun _ _ => rfl, fun _ _ => rfl, fun _ _ => rfl, fun _ _ => rfl,
    fun _ _ => rfl, fun _ _ => rfl, fun _ _ => rfl, fun _ _ => rfl, fun _ _ => rfl,
    fun _ _ => rfl, fun _ _ => rfl, fun _ _ => rfl, fun _ _ => rfl, fun _ _ => rfl,
    fun _ _ => rfl, fun _ _ => rfl, fun _ _ => rfl, fun _ _ => rfl, fun _ _ => rfl,
    fun _ _ => rfl, fun _ _ => rfl, fun _ _ => rfl, fun _ _ => rfl, fun _ _ => rfl,
    fun _ _ => rfl, fun _ _ => rfl, fun _ _ => rfl, fun _ _ => rfl, ?_, ?_, ?_, ?_, ?_,
    ?_, fun _ _ => rfl, ?_, ?_, ?_, ?_⟩
  · intro c s
    cases c <;> rfl
  · intro c s
    cases c <;> rfl
  · intro c s
    cases c <;> rfl
  · intro c s
    cases c <;> rfl
  · intro c s
    cases c <;> rfl
  · intro c s
    cases c <;> rfl
  · intro c t
    simp only [FontColorProperty.apply]
    congr 1
    exact map_idem (fun sec => { sec with color := c.getD default })
      (fun _ => rfl) t.sections
  · intro c t
    simp only [FontSizeProperty.apply]
    congr 1
    exact map_idem (fun sec => { sec with font_size := c.getD textStyleDefaultFontSize })
      (fun _ => rfl) t.sections
  · intro c t
    cases c with
    | none => rfl
    | some v =>
      simp only [TextContentProperty.apply]
      congr 1
      exact map_idem (fun sec => { sec with value := v }) (fun _ => rfl) t.sections
  · intro c comps
    obtain ⟨b, i⟩ := comps
    cases b <;> cases i <;> rfl

/-- C9: `TextAlignProperty::parse` never produces `Ok(None)`, so applying
any successfully parsed cache cannot reach the
`expect("Should always have a inner value")` panic — the embedded apply
always returns a result. -/
theorem claim9_text_align_no_panic :
    ∀ (values : PropertyValues) (c : Option JustifyText) (t : Text),
      TextAlignProperty.parse values = Except.ok c →
      c ≠ Option.none ∧ TextAlignProperty.apply (some c) t ≠ Option.none := by
  intro values c t hp
  unfold TextAlignProperty.parse at hp
  cases hid : PropertyValues.identifier values with
  | none =>
    rw [hid] at hp
    cases hp
  | some ident =>
    rw [hid] at hp
    by_cases h1 : ident = "left"
    · simp only [h1, if_pos rfl] at hp
      cases hp
      exact ⟨by simp, by simp [TextAlignProperty.apply]⟩
    · by_cases h2 : ident = "center"
      · simp only [h1, h2, if_neg, if_pos rfl, reduceIte] at hp
        cases hp
        exact ⟨by simp, by simp [TextAlignProperty.apply]⟩
      · by_cases h3 : ident = "right"
        · simp only [h1, h2, h3, reduceIte] at hp
          cases hp
          exact ⟨by simp, by simp [TextAlignProperty.apply]⟩
        · simp only [h1, h2, h3, reduceIte] at hp
          cases hp

/-- Witness for C9: a concrete parse produces a `Some` cache and its
application succeeds. -/
theorem claim9_witness :
    (some JustifyText.center : Option JustifyText) ≠ Option.none ∧
      TextAlignProperty.apply (some (some JustifyText.center)) ⟨[], JustifyText.left⟩ ≠
        Option.none :=
  claim9_text_align_no_panic [PropertyToken.identifier "center"]
    (some JustifyText.center) ⟨[], JustifyText.left⟩ rfl

/-- C10: the single-value interpreters `val`, `f32`, `string`,
`identifier` and `option_f32` yield the value of the first token of an
accepted kind, silently skipping tokens of other kinds, and yield `none`
exactly when no accepted token is present; in particular a declaration
with leading and trailing unexpected tokens still succeeds with the first
acceptable value. -/
theorem claim10_first_accepted_token :
    (∀ (pre post : List PropertyToken) (t : PropertyToken) (v : Val),
      (∀ u ∈ pre, valToken u = Option.none) → valToken t = some v →
      PropertyValues.val (pre ++ t :: post) = some v) ∧
    (∀ ts : PropertyValues,
      PropertyValues.val ts = Option.none ↔ ∀ t ∈ ts, valToken t = Option.none) ∧
    (∀ (pre post : List PropertyToken) (t : PropertyToken) (v : ℚ),
      (∀ u ∈ pre, f32Token u = Option.none) → f32Token t = some v →
      PropertyValues.f32 (pre ++ t :: post) = some v) ∧
    (∀ ts : PropertyValues,
      PropertyValues.f32 ts = Option.none ↔ ∀ t ∈ ts, f32Token t = Option.none) ∧
    (∀ (pre post : List PropertyToken) (t : PropertyToken) (v : String),
      (∀ u ∈ pre, stringToken u = Option.none) → stringToken t = some v →
      PropertyValues.string (pre ++ t :: post) = some v) ∧
    (∀ ts : PropertyValues,
      PropertyValues.string ts = Option.none ↔ ∀ t ∈ ts, stringToken t = Option.none) ∧
    (∀ (pre post : List PropertyToken) (t : PropertyToken) (v : String),
      (∀ u ∈ pre, identifierToken u = Option.none) → identifierToken t = some v →
      PropertyValues.identifier (pre ++ t :: post) = some v) ∧
    (∀ ts : PropertyValues,
      PropertyValues.identifier ts = Option.none ↔
        ∀ t ∈ ts, identifierToken t = Option.none) ∧
    (∀ (pre post : List PropertyToken) (t : PropertyToken) (v : Option ℚ),
      (∀ u ∈ pre, optionF32Token u = Option.none) → optionF32Token t = some v →
      PropertyValues.option_f32 (pre ++ t :: post) = some v) ∧
    (∀ ts : PropertyValues,
      PropertyValues.option_f32 ts = Option.none ↔
        ∀ t ∈ ts, optionF32Token t = Option.none) ∧
    (PropertyValues.val [PropertyToken.string "x", PropertyToken.dimension 10,
        PropertyToken.dimension 20] = some (Val.px 10)) :=
  ⟨fun pre post t v hpre ht => findSome_first valToken pre post t v hpre ht,
   fun ts => findSome_eq_none_iff valToken ts,
   fun pre post t v hpre ht => findSome_first f32Token pre post t v hpre ht,
   fun ts => findSome_eq_none_iff f32Token ts,
   fun pre post t v hpre ht => findSome_first stringToken pre post t v hpre ht,
   fun ts => findSome_eq_none_iff stringToken ts,
   fun pre post t v hpre ht => findSome_first identifierToken pre post t v hpre ht,
   fun ts => findSome_eq_none_iff identifierToken ts,
   fun pre post t v hpre ht => findSome_first optionF32Token pre post t v hpre ht,
   fun ts => findSome_eq_none_iff optionF32Token ts,
   rfl⟩

/-- Witness for C10: a declaration with a leading string token and a
trailing extra dimension still yields the first acceptable value. -/
theorem claim10_witness :
    PropertyValues.val
        [PropertyToken.string "x", PropertyToken.dimension 10, PropertyToken.dimension 20] =
      some (Val.px 10) :=
  claim10_first_accepted_token.1 [PropertyToken.string "x"] [PropertyToken.dimension 20]
    (PropertyToken.dimension 10) (Val.px 10)
    (by
      intro u hu
      rcases List.mem_singleton.mp hu with rfl
      rfl)
    rfl

end BevyEcss
